import Mathlib

/-!
Verification of the `ecdsa-python` reference implementation.

This file gives a shallow embedding of the five Python modules
(`numbertheory.py`, `data_conversion.py`, `curveparam.py`, `curvepoint.py`,
`ecdsa.py`) and proves or refutes the frozen specification claims about them.

Conventions of the embedding:
* Python arbitrary-precision integers are `Int` (or `Nat` where the code only
  ever sees nonnegative values); Python `%` on a positive modulus agrees with
  `Int.emod`, and Python `//` with `Int.ediv`, so `%` and `/` are used directly.
* Python exceptions are modelled with `Except PyError`; the distinct exception
  classes (`ValueError`, `AssertionError`, `NotImplementedError`) are distinct
  constructors, since one claim is about which class escapes.
* Python `while`/`for` loops are modelled by structurally recursive functions
  with an explicit fuel argument; fuel is always chosen large enough that the
  translated loop never exhausts it on the executions the claims quantify over,
  and exhaustion surfaces as the distinguished `PyError.fuelExhausted` value.
* Python `pow(b, e, m)` is binary modular exponentiation; `pow(n, -1, p)` is
  the extended-Euclid modular inverse, raising `ValueError` when
  `gcd(n, p) ≠ 1`, exactly as CPython implements it.
-/

set_option maxRecDepth 1000000

set_option linter.unusedVariables false

set_option maxHeartbeats 4000000

deriving instance DecidableEq for Except

namespace EcdsaPy

/-- Python exception kinds raised by the translated code, plus the artificial
`fuelExhausted` marker for the fuel-driven loop translations (proved unreachable
under the preconditions of the claims that exercise those loops). -/
inductive PyError where
  | valueError (msg : String)
  | assertionError (msg : String)
  | notImplementedError (msg : String)
  | fuelExhausted
deriving DecidableEq, Repr

/-- `true` iff the error is a Python `ValueError` (the class the spec calls
`InvalidEncoding`). -/
def PyError.isValueError : PyError → Bool
  | .valueError _ => true
  | _ => false

/-! ### numbertheory.py -/

/-- Fueled binary modular exponentiation: `powModGo f b e m = b ^ e % m`
whenever `e < 2 ^ f`.  Models Python's built-in three-argument `pow` with a
nonnegative base and exponent. -/
def powModGo : Nat → Nat → Nat → Nat → Nat
  | 0, _, _, m => 1 % m
  | f + 1, b, e, m =>
    if e = 0 then 1 % m
    else
      let r := powModGo f (b * b % m) (e / 2) m
      if e % 2 = 1 then r * b % m else r

/-- Python `pow(b, e, m)` for `b, e ≥ 0`: the fuel `e + 1` always suffices
because `e < 2 ^ (e + 1)`. -/
def powMod (b e m : Nat) : Nat := powModGo (e + 1) b e m

/-- `legendre(a, p)` from numbertheory.py: `pow(a, (p - 1) // 2, p)`.
Python reduces the (possibly negative) base modulo `p` first. -/
def legendre (a p : Int) : Int :=
  (powMod (a % p).toNat ((p - 1) / 2).toNat p.toNat : Int)

/-- Fueled extended Euclid: `invGo f r0 r1 s0 s1` iterates
`(r0, r1, s0, s1) ← (r1, r0 % r1, s1, s0 - (r0 / r1) * s1)` until `r1 = 0` and
returns the Bezout coefficient `s0` of the original first argument.  Any fuel
`> r1` suffices since `r1` strictly decreases. -/
def invGo : Nat → Nat → Nat → Int → Int → Int
  | 0, _, _, s0, _ => s0
  | f + 1, r0, r1, s0, s1 =>
    if r1 = 0 then s0 else invGo f r1 (r0 % r1) s1 (s0 - ((r0 / r1 : Nat) : Int) * s1)

/-- `inv_mod(n, p)` from numbertheory.py, which is Python's `pow(n, -1, p)`:
the modular inverse in `[0, p)` computed by extended Euclid on `n % p` and `p`,
raising `ValueError` when the inverse does not exist.  The code only ever calls
it with `p > 0`. -/
def inv_mod (n p : Int) : Except PyError Int :=
  let a := (n % p).toNat
  if Nat.gcd a p.toNat = 1 then
    .ok (invGo (a + 1) p.toNat a 0 1 % p)
  else
    .error (.valueError "base is not invertible for the given modulus")

/-- The first `while` loop of `tonelli`: strip factors of two from `Q`,
counting them in `S`.  Fuel `≥ Q` suffices. -/
def tonelliQS : Nat → Nat → Nat → Nat × Nat
  | 0, q, s => (q, s)
  | f + 1, q, s => if q % 2 = 0 then tonelliQS f (q / 2) (s + 1) else (q, s)

/-- The non-residue search of `tonelli`: starting from `z`, increment while
`legendre z p ≠ p - 1`.  Fuel `≥ p` suffices for an odd prime `p` because a
non-residue below `p` exists. -/
def tonelliZ : Nat → Int → Int → Int
  | 0, z, _ => z
  | f + 1, z, p => if legendre z p ≠ p - 1 then tonelliZ f (z + 1) p else z

/-- The inner loop of `tonelli`: repeatedly square `z` modulo `p`, incrementing
`i`, while `z ≠ 1 ∧ i < M - 1`; returns the final `i`. -/
def tonelliI : Nat → Int → Int → Nat → Nat → Nat
  | 0, _, _, i, _ => i
  | f + 1, z, p, i, M =>
    if z ≠ 1 ∧ i < M - 1 then tonelliI f (z * z % p) p (i + 1) M else i

/-- The `for _ in range(k, 0, -1)` squaring loop of `tonelli`: square `b`
modulo `p` exactly `k` times. -/
def sqIter : Nat → Int → Int → Int
  | 0, b, _ => b
  | k + 1, b, p => sqIter k (b * b % p) p

/-- The main `while t != 0 and t != 1` loop of `tonelli`.  The state is
`(t, R, c, M)`; the fuel is proved sufficient because `M` strictly decreases
under the loop invariant. -/
def tonelliLoop : Nat → Int → Int → Int → Int → Nat → Except PyError Int
  | 0, _, _, _, _, _ => .error .fuelExhausted
  | f + 1, p, t, R, c, M =>
    if t ≠ 0 ∧ t ≠ 1 then
      let i := tonelliI M t p 0 M
      let b := sqIter (M - i - 1) c p
      tonelliLoop f p (t * (b * b % p) % p) (R * b % p) (b * b % p) i
    else if t = 0 then .ok 0 else .ok R

/-- `tonelli(n, p)` from numbertheory.py (Tonelli–Shanks).  The two `assert`
statements are modelled as `AssertionError` results; the second one
(`z != 0`) can in fact never fire since the search starts at `z = 1` and only
increments. -/
def tonelli (n p : Int) : Except PyError Int :=
  if legendre n p ≠ 1 then .error (.assertionError "not a square (mod p)")
  else
    let QS := tonelliQS (p - 1).toNat (p - 1).toNat 0
    let Q := QS.1
    let S := QS.2
    let z := tonelliZ p.toNat 1 p
    if z = 0 then .error (.assertionError "non-quadratic residue mod p not found")
    else
      let c := (powMod (z % p).toNat Q p.toNat : Int)
      let t := (powMod (n % p).toNat Q p.toNat : Int)
      let R := (powMod (n % p).toNat ((Q + 1) / 2) p.toNat : Int)
      tonelliLoop (S + 1) p t R c S

/-! ### data_conversion.py -/

/-- Value of a hexadecimal digit, as accepted by Python `int(…, 16)`. -/
def hexDigit? (c : Char) : Option Nat :=
  if '0' ≤ c ∧ c ≤ '9' then some (c.toNat - '0'.toNat)
  else if 'a' ≤ c ∧ c ≤ 'f' then some (c.toNat - 'a'.toNat + 10)
  else if 'A' ≤ c ∧ c ≤ 'F' then some (c.toNat - 'A'.toNat + 10)
  else none

/-- Python `int(s, 16)` on a list of characters; `ValueError` on a non-hex
character or the empty string, as in CPython. -/
def hexCharsToNat : List Char → Nat → Except PyError Nat
  | [], acc => .ok acc
  | c :: cs, acc =>
    match hexDigit? c with
    | some d => hexCharsToNat cs (acc * 16 + d)
    | none => .error (.valueError "invalid literal for int() with base 16")

/-- `octet_str_to_int` from data_conversion.py: strip spaces, parse base 16. -/
def octet_str_to_int (s : String) : Except PyError Int := do
  let cs := s.data.filter (fun c => c ≠ ' ')
  if cs.isEmpty then
    .error (.valueError "invalid literal for int() with base 16")
  else
    let n ← hexCharsToNat cs 0
    return (n : Int)

/-- `grouper(2, …)` from data_conversion.py specialised to the only way it is
reached: an even-length hex string, grouped into consecutive two-character
chunks each parsed with `int(…, 16)`. -/
def hexPairs : List Char → Except PyError (List Nat)
  | [] => .ok []
  | [_] => .error (.valueError "invalid literal for int() with base 16")
  | c₁ :: c₂ :: cs => do
    let d ← hexCharsToNat [c₁, c₂] 0
    let rest ← hexPairs cs
    return d :: rest

/-- `octet_str_to_octet_list` from data_conversion.py: drop all whitespace,
left-pad with one `'0'` if the length is odd, then group into bytes. -/
def octet_str_to_octet_list (s : String) : Except PyError (List Nat) :=
  let stripped := s.data.filter (fun c => ¬ c.isWhitespace)
  let padded := if stripped.length % 2 ≠ 0 then '0' :: stripped else stripped
  hexPairs padded

/-- `octet_list_to_int` from data_conversion.py: big-endian byte fold. -/
def octet_list_to_int (l : List Nat) : Int :=
  (l.foldl (fun acc o => acc * 256 + o) 0 : Nat)

/-- `octet_list_to_field_elem` from data_conversion.py: the integer value,
range-checked into `[0, p)`. -/
def octet_list_to_field_elem (l : List Nat) (p : Int) : Except PyError Int :=
  let e := octet_list_to_int l
  if 0 ≤ e ∧ e < p then .ok e
  else .error (.valueError "field element out of range")

/-- Fueled hex rendering of a natural number, producing the digit list of
Python's `hex(n)` without the `0x` prefix (lowercase, no leading zeros,
`"0"` for zero). -/
def toHexGo : Nat → Nat → List Char → List Char
  | 0, _, acc => acc
  | f + 1, n, acc =>
    if n = 0 then acc
    else toHexGo f (n / 16) (("0123456789abcdef".get? ⟨n % 16⟩).getD '0' :: acc)

/-- Python `hex(n).replace("0x", "", 1)` for `n ≥ 0`. -/
def natToHex (n : Nat) : List Char :=
  if n = 0 then ['0'] else toHexGo n n []

/-- `field_elem_to_octet_list` from data_conversion.py: minimal hex form of the
element, left-padded to even length, grouped into bytes. -/
def field_elem_to_octet_list (e : Int) : Except PyError (List Nat) :=
  let s := natToHex e.toNat
  let padded := if s.length % 2 ≠ 0 then '0' :: s else s
  hexPairs padded

/-- Fueled `⌊log2 n⌋ + 1` (0 for `n = 0`): the binary bit length.  Fuel `≥ n`
suffices. -/
def bitlenGo : Nat → Nat → Nat
  | 0, _ => 0
  | f + 1, n => if n = 0 then 0 else bitlenGo f (n / 2) + 1

/-- The bit length of `n`, i.e. `⌊log2 n⌋ + 1` for `n ≥ 1`.  This models the
Python expression `floor(log2(n)) + 1`; Python computes it in floating point,
which for `n ≥ 1` yields either this value or (when rounding pushes `log2` up
to the next integer) one more — and the extra iteration the latter causes in
the one consumer, double-and-add, is a no-op on the infinity accumulator. -/
def bitlen (n : Nat) : Nat := bitlenGo n n

/-- `⌈log2 n⌉` for `n ≥ 2`.  Models Python's `ceil(log2(n))`, an exact match
whenever the floating-point `log2` does not cross an integer boundary, which
holds for every modulus and order appearing in the claims. -/
def ceilLog2 (n : Nat) : Nat := bitlen (n - 1)

/-- `ceil(log2(p) / 8)`: the byte length of a field element of `F_p` as used
by the point codec (see `ceilLog2` for the floating-point caveat). -/
def mlen (p : Int) : Nat := (ceilLog2 p.toNat + 7) / 8

/-- The dead test `octets[0] == "00"` in `octet_str_to_point`: Python compares
the `int` element against the string literal `"00"`, which is always `False`
regardless of the value.  (The intended test was evidently `octets[0] == 0`.) -/
def octetEqualsStr00 (_o : Nat) : Bool := false

/-- The curve parameter dictionary `params` of curveparam.py: the subset of
entries used by point decoding plus the group data. -/
structure CurveParams where
  p : Int
  a : Int
  b : Int
  n : Int
  h : Int
deriving DecidableEq, Repr

/-- `octet_str_to_point` from data_conversion.py, including the dead
infinity branch (`octetEqualsStr00`) and the order of the checks exactly as in
the source. -/
def octet_str_to_point (s : String) (C : CurveParams) : Except PyError (Int × Int) := do
  let octets ← octet_str_to_octet_list s
  if octets.length = 1 ∧ octetEqualsStr00 (octets.headD 0) then
    return (0, 0)
  else if octets.length = mlen C.p + 1 then
    let Y := octets.headD 0
    let X := octets.tail
    let x ← octet_list_to_field_elem X C.p
    if Y ≠ 2 ∧ Y ≠ 3 then
      .error (.valueError "Invalid Y value")
    else
      let yTilde : Int := if Y = 2 then 0 else 1
      if C.p % 2 = 0 then
        .error (.notImplementedError "Support for F_2^m is not implemented")
      else
        let alpha := (x ^ 3 + C.a * x + C.b) % C.p
        let beta ← tonelli alpha C.p
        let y := if (beta - yTilde) % 2 = 0 then beta else C.p - beta
        return (x, y)
  else if octets.length = 2 * mlen C.p + 1 then
    let W := octets.headD 0
    let coordLen := mlen C.p
    let X := (octets.tail).take coordLen
    let Y := (octets.tail).drop coordLen
    if W ≠ 4 then
      .error (.valueError "Invalid W value")
    else do
      let x ← octet_list_to_field_elem X C.p
      let y ← octet_list_to_field_elem Y C.p
      return (x, y)
  else
    .error (.valueError "Invalid octet string length")

/-! ### curvepoint.py -/

/-- `CurvePoint.__add__`.  Both operands carry the same `CurveParams` (the
source `assert`s this), so the embedding takes the parameters once.  The
sentinel `(0, 0)` is the point at infinity.  The `inv_mod` call raises
`ValueError` exactly when the Python `pow(…, -1, p)` would. -/
def pointAdd (C : CurveParams) (P Q : Int × Int) : Except PyError (Int × Int) :=
  if P.1 = P.2 ∧ P.2 = 0 then .ok Q
  else if Q.1 = Q.2 ∧ Q.2 = 0 then .ok P
  else if P.1 = Q.1 then
    if P.2 = Q.2 then do
      let i ← inv_mod (2 * P.2) C.p
      let L := (3 * P.1 ^ 2 + C.a) * i % C.p
      let rx := (L ^ 2 - 2 * P.1) % C.p
      let ry := (L * (P.1 - rx) - P.2) % C.p
      return (rx, ry)
    else .ok (0, 0)
  else do
    let i ← inv_mod (Q.1 - P.1) C.p
    let L := (Q.2 - P.2) * i % C.p
    let rx := (L ^ 2 - P.1 - Q.1) % C.p
    let ry := (L * (P.1 - rx) - P.2) % C.p
    return (rx, ry)

/-- `CurvePoint.__neg__`: constructs the point `(x, -y)`.  The y-coordinate is
**not** reduced modulo `p` in the source. -/
def pointNeg (P : Int × Int) : Int × Int := (P.1, -P.2)

/-- The double-and-add loop of `CurvePoint.__rmul__`, processing bit `s - 1`
down to bit `0` of the scalar `k`: double the accumulator, then add `P` when
the current bit is set. -/
def rmulGo (C : CurveParams) (P : Int × Int) (k : Nat) :
    Nat → Int × Int → Except PyError (Int × Int)
  | 0, acc => .ok acc
  | s + 1, acc => do
    let d ← pointAdd C acc acc
    let acc' ← if (k >>> s) % 2 = 1 then pointAdd C d P else .ok d
    rmulGo C P k s acc'

/-- `CurvePoint.__rmul__` for a nonnegative scalar: `0` yields infinity,
otherwise double-and-add over `bitlen k` bits starting from infinity. -/
def rmulNat (C : CurveParams) (k : Nat) (P : Int × Int) :
    Except PyError (Int × Int) :=
  if k = 0 then .ok (0, 0) else rmulGo C P k (bitlen k) (0, 0)

/-- `CurvePoint.__rmul__`: a negative scalar is handled as
`-((-scalar) * self)` (negating the *result*), otherwise `rmulNat`. -/
def pointRMul (C : CurveParams) (k : Int) (P : Int × Int) :
    Except PyError (Int × Int) :=
  if k < 0 then do
    let r ← rmulNat C (-k).toNat P
    return pointNeg r
  else rmulNat C k.toNat P

/-- `CurvePoint.octet_str`: infinity encodes to `"00"`, otherwise the
compressed form `02/03 ‖ x`, rendered through `hex(…)` with odd-length
padding. -/
def point_octet_str (P : Int × Int) : Except PyError String :=
  if P.1 = P.2 ∧ P.2 = 0 then .ok "00"
  else do
    let yTilde := P.2 % 2
    let head : Nat := if yTilde = 0 then 2 else 3
    let xOct ← field_elem_to_octet_list P.1
    let s := natToHex (octet_list_to_int (head :: xOct)).toNat
    let padded := if s.length % 2 ≠ 0 then '0' :: s else s
    return String.mk padded

/-! ### curveparam.py -/

/-- Reads the value of a conversion that is known to succeed (the constant
strings of curveparam.py always parse). -/
def getOk (x : Except PyError Int) : Int := x.toOption.getD 0

/-- The `secp256r1` octet-string constant for the field modulus `p`. -/
def p256str : String :=
  "FFFFFFFF 00000001 00000000 00000000 00000000 FFFFFFFF FFFFFFFF FFFFFFFF"

/-- The `secp256r1` octet-string constant for the coefficient `a`. -/
def a256str : String :=
  "FFFFFFFF 00000001 00000000 00000000 00000000 FFFFFFFF FFFFFFFF FFFFFFFC"

/-- The `secp256r1` octet-string constant for the coefficient `b`. -/
def b256str : String :=
  "5AC635D8 AA3A93E7 B3EBBD55 769886BC 651D06B0 CC53B0F6 3BCE3C3E 27D2604B"

/-- The `secp256r1` octet-string constant for the compressed base point `G`. -/
def g256str : String :=
  "03 6B17D1F2 E12C4247 F8BCE6E5 63A440F2 77037D81 2DEB33A0 F4A13945 D898C296"

/-- The `secp256r1` octet-string constant for the group order `n`. -/
def n256str : String :=
  "FFFFFFFF 00000000 FFFFFFFF FFFFFFFF BCE6FAAD A7179E84 F3B9CAC2 FC632551"

/-- The parameter dictionary built by `CurveParam.__init__` for `secp256r1`
(each constant parsed by `octet_str_to_int`). -/
def secp256r1 : CurveParams :=
  { p := getOk (octet_str_to_int p256str)
    a := getOk (octet_str_to_int a256str)
    b := getOk (octet_str_to_int b256str)
    n := getOk (octet_str_to_int n256str)
    h := getOk (octet_str_to_int "01") }

/-- `CurveParam.basepoint` for `secp256r1`: the constant `G` decoded with
`octet_str_to_point` (which succeeds on this input). -/
def basepointG : Int × Int :=
  (octet_str_to_point g256str secp256r1).toOption.getD (0, 0)

/-! ### ecdsa.py -/

/-- `ECDSA.create_key_pair` with the value drawn by `secrets.randbelow(p - 1)`
made explicit: the source draws `rand ∈ [0, p - 2]` and returns
`(d, Q) = (rand + 1, d * G)`. -/
def create_key_pair (C : CurveParams) (G : Int × Int) (rand : Nat) :
    Int × Except PyError (Int × Int) :=
  ((rand : Int) + 1, pointRMul C ((rand : Int) + 1) G)

/-- The digest-truncation step shared by `create_sign` and `verify_sign`:
`H` is the byte list parsed from the hash output, `H̄` its big-endian integer
value, and `e` is `H̄` shifted right by `8·len(H) − ⌈log2 n⌉` bits when the
digest is longer than the order's bit length. -/
def digestE (C : CurveParams) (H : List Nat) : Int :=
  let Hbar := octet_list_to_int H
  let nBitlen := ceilLog2 C.n.toNat
  if nBitlen ≥ 8 * H.length then Hbar
  else Int.ofNat (Hbar.toNat >>> (8 * H.length - nBitlen))

/-- The `while r == 0` retry loop of `create_sign`: draw `(k, R)` via
`create_key_pair` from the next random value and recompute `r = R.x % n`
until `r ≠ 0`; returns `(k, r)`.  The list is the sequence of values produced
by the randomness source on this execution. -/
def signRetry (C : CurveParams) (G : Int × Int) :
    List Nat → Except PyError (Int × Int)
  | [] => .error .fuelExhausted
  | rand :: rest => do
    let kR := create_key_pair C G rand
    let R ← kR.2
    let r := R.1 % C.n
    if r = 0 then signRetry C G rest else return (kR.1, r)

/-- `ECDSA.create_sign` with the injected hash `hf`, the private scalar `d`
of the held key pair, and the stream of values drawn by the randomness source
made explicit. -/
def create_sign (C : CurveParams) (G : Int × Int) (hf : List Nat → String)
    (d : Int) (rands : List Nat) (message : List Nat) :
    Except PyError (Int × Int) := do
  let kr ← signRetry C G rands
  let H ← octet_str_to_octet_list (hf message)
  let e := digestE C H
  let kinv ← inv_mod kr.1 C.n
  let s := kinv * (e + kr.2 * d) % C.n
  return (kr.2, s)

/-- `ECDSA.verify_sign` with the injected hash `hf` and the public point `Q`
of the held key pair. -/
def verify_sign (C : CurveParams) (G : Int × Int) (hf : List Nat → String)
    (Q : Int × Int) (message : List Nat) (sig : Int × Int) :
    Except PyError Bool := do
  let r := sig.1
  let s := sig.2
  if ¬ (1 ≤ r ∧ r ≤ C.n - 1) then return false
  else if ¬ (1 ≤ s ∧ s ≤ C.n - 1) then return false
  else
    let H ← octet_str_to_octet_list (hf message)
    let e := digestE C H
    let sinv ← inv_mod s C.n
    let u1 := e * sinv % C.n
    let u2 := r * sinv % C.n
    let P1 ← pointRMul C u1 G
    let P2 ← pointRMul C u2 Q
    let R ← pointAdd C P1 P2
    if R.1 = R.2 ∧ R.2 = 0 then return false
    else return (decide (R.1 % C.n = r))

/-- Concrete signing inputs that make `create_sign` return `s = 0`: with hash
output `"01"` (so `e = 1`) and ephemeral draw `0` (so `k = 1` and
`r = G.x mod n`), the private scalar `c1d` satisfies `1 + r·d ≡ 0 (mod n)`. -/
def c1d : Int :=
  82070519689953792473329917903713411195094223508760737763493333924077695616958

/-- The randomness value that makes `create_key_pair` return `c1d`. -/
def c1rand : Nat :=
  82070519689953792473329917903713411195094223508760737763493333924077695616957

/-- `r = G.x mod n` for the ephemeral scalar `k = 1`. -/
def c1r : Int :=
  48439561293906451759052585252797914202762949526041747995844080717082404635286

/-- The public point `c1d · G`. -/
def c1Q : Int × Int :=
  (113152401676028839250873055055003242682842627979957701062773797149727716358943,
   73053901862886710033318638718334179759332411534888680723369513883116743988075)

/-- Both stored coordinates of a point lie in the canonical range `[0, p)`. -/
def coordsInRange (C : CurveParams) (P : Int × Int) : Prop :=
  0 ≤ P.1 ∧ P.1 < C.p ∧ 0 ≤ P.2 ∧ P.2 < C.p

/-! ### Bridge to Mathlib's Weierstrass-curve theory (verification only) -/

/-- The short Weierstrass curve `y² = x³ + ax + b` over `ZMod p` with the
embedded integer parameters. -/
def Wc (p : Nat) (a b : Int) : WeierstrassCurve.Affine (ZMod p) :=
  { a₁ := 0, a₂ := 0, a₃ := 0, a₄ := (a : ZMod p), a₆ := (b : ZMod p) }

instance (p : Nat) (a b : Int) (x y : ZMod p) : Decidable ((Wc p a b).Equation x y) :=
  decidable_of_iff _ ((Wc p a b).equation_iff x y).symm

instance (p : Nat) (a b : Int) (x y : ZMod p) : Decidable ((Wc p a b).Nonsingular x y) :=
  decidable_of_iff _ ((Wc p a b).nonsingular_iff x y).symm

/-- The nonsingular Mathlib point represented by an integer pair: the `(0, 0)`
sentinel (or any pair that is not a nonsingular affine point) maps to the
group identity, every other pair to the affine point with the cast
coordinates. -/
def ptF (p : Nat) (a b : Int) (P : Int × Int) : (Wc p a b).Point :=
  if h : ¬ (P.1 = 0 ∧ P.2 = 0) ∧
      (Wc p a b).Nonsingular ((P.1 : ZMod p)) ((P.2 : ZMod p)) then
    .some h.2
  else
    0

/-- A representation invariant for embedded points: either the infinity
sentinel `(0, 0)`, or an in-range pair, different from the sentinel, whose
cast coordinates form a nonsingular affine point of the curve. -/
def ValidRep (C : CurveParams) (P : Int × Int) : Prop :=
  P = (0, 0) ∨
  (¬ (P.1 = 0 ∧ P.2 = 0) ∧ 0 ≤ P.1 ∧ P.1 < C.p ∧ 0 ≤ P.2 ∧ P.2 < C.p ∧
    (Wc C.p.toNat C.a C.b).Nonsingular ((P.1 : ZMod C.p.toNat)) ((P.2 : ZMod C.p.toNat)))

/-! ### Pratt primality certificates (verification infrastructure, not code) -/

/-- Product of the prime powers in a certificate's factor list. -/
def prodPP : List (Nat × Nat) → Nat
  | [] => 1
  | qe :: rest => qe.1 ^ qe.2 * prodPP rest

/-- The per-factor obligations of a Pratt certificate for `p` with witness
`a`: every listed base is prime and `a ^ ((p−1)/q) ≢ 1 (mod p)`. -/
def prattCheck (p a : Nat) : List (Nat × Nat) → Prop
  | [] => True
  | qe :: rest => Nat.Prime qe.1 ∧ powMod a ((p - 1) / qe.1) p ≠ 1 ∧ prattCheck p a rest

end EcdsaPy

namespace EcdsaPy

/-! ### Sanity checks of the numbertheory embedding on small inputs -/

example : powMod 3 5 7 = 5 := rfl
example : powMod 2 10 1000 = 24 := rfl
example : inv_mod 3 7 = .ok 5 := rfl
example : inv_mod 0 7 = .error (.valueError "base is not invertible for the given modulus") := rfl
example : legendre 2 7 = 1 := rfl
example : legendre 3 7 = 6 := rfl
example : tonelli 2 7 = .ok 4 := rfl
example : tonelli 3 7 = .error (.assertionError "not a square (mod p)") := rfl
example : tonelli 5 41 = .ok 28 := rfl

/-! ### Sanity checks of the curve embedding against independent computations -/

/-- A small test curve `y² = x³ + x + 1` over `F₂₃`. -/
def tiny : CurveParams := { p := 23, a := 1, b := 1, n := 28, h := 1 }

example : pointAdd tiny (0, 1) (1, 7) = .ok (12, 19) := rfl
example : pointAdd tiny (0, 1) (0, 1) = .ok (6, 19) := rfl
example : pointAdd tiny (0, 0) (1, 7) = .ok (1, 7) := rfl
example : pointAdd tiny (0, 1) (0, 22) = .ok (0, 0) := rfl
example : rmulNat tiny 7 (0, 1) = .ok (11, 3) := rfl
example : rmulNat tiny 13 (0, 1) = .ok (9, 16) := rfl
example : octet_str_to_int "00" = .ok 0 := rfl
example : octet_str_to_octet_list "0201" = .ok [2, 1] := rfl
example : mlen 23 = 1 := rfl

example :
    secp256r1.p =
      115792089210356248762697446949407573530086143415290314195533631308867097853951 := by
  decide

example :
    secp256r1.n =
      115792089210356248762697446949407573529996955224135760342422259061068512044369 := by
  decide

/-! ### Correctness of the fueled arithmetic primitives -/

theorem powModGo_eq (f : Nat) :
    ∀ b e m, e < 2 ^ f → powModGo f b e m = b ^ e % m := by
  induction f with
  | zero =>
    intro b e m h
    have he : e = 0 := by omega
    subst he
    simp [powModGo]
  | succ f ih =>
    intro b e m h
    have hunf : powModGo (f + 1) b e m =
        if e = 0 then 1 % m
        else
          let r := powModGo f (b * b % m) (e / 2) m
          if e % 2 = 1 then r * b % m else r := rfl
    by_cases he : e = 0
    · subst he; simp [hunf]
    · have h2 : e / 2 < 2 ^ f := by
        have hp : (2 : Nat) ^ (f + 1) = 2 ^ f * 2 := by ring
        rw [hp] at h
        omega
      have hrec := ih (b * b % m) (e / 2) m h2
      have hpow : (b * b % m) ^ (e / 2) % m = b ^ (2 * (e / 2)) % m := by
        rw [← Nat.pow_mod, mul_pow, ← pow_add, ← two_mul]
      rw [hunf, if_neg he]
      show (if e % 2 = 1 then powModGo f (b * b % m) (e / 2) m * b % m
            else powModGo f (b * b % m) (e / 2) m) = b ^ e % m
      rw [hrec, hpow]
      rcases Nat.even_or_odd e with hev | hod
      · have heq : e % 2 = 0 := Nat.even_iff.mp hev
        have hm2 : ¬ e % 2 = 1 := by omega
        have h2e : 2 * (e / 2) = e := by omega
        rw [if_neg hm2, h2e]
      · have hm2 : e % 2 = 1 := Nat.odd_iff.mp hod
        have h2e : 2 * (e / 2) + 1 = e := by omega
        rw [if_pos hm2, Nat.mod_mul_mod, ← pow_succ, h2e]

theorem powMod_eq (b e m : Nat) : powMod b e m = b ^ e % m :=
  powModGo_eq (e + 1) b e m
    ((Nat.lt_two_pow e).trans_le (Nat.pow_le_pow_right (by norm_num) (Nat.le_succ e)))

theorem powMod_lt (b e m : Nat) (hm : 0 < m) : powMod b e m < m := by
  rw [powMod_eq]; exact Nat.mod_lt _ hm

/-- Cast of `powMod` into `ZMod m`. -/
theorem powMod_cast (b e m : Nat) :
    ((powMod b e m : Nat) : ZMod m) = (b : ZMod m) ^ e := by
  rw [powMod_eq, ZMod.natCast_mod, Nat.cast_pow]

theorem invGo_spec (m nn : Int) :
    ∀ (f r0 r1 : Nat) (s0 s1 : Int), r1 < f →
      ((r0 : Int) ≡ s0 * nn [ZMOD m]) → ((r1 : Int) ≡ s1 * nn [ZMOD m]) →
      (invGo f r0 r1 s0 s1 * nn ≡ (Nat.gcd r0 r1 : Int) [ZMOD m]) := by
  intro f
  induction f with
  | zero => intro r0 r1 s0 s1 h; omega
  | succ f ih =>
    intro r0 r1 s0 s1 hf h0 h1
    have hunf : invGo (f + 1) r0 r1 s0 s1 =
        if r1 = 0 then s0
        else invGo f r1 (r0 % r1) s1 (s0 - ((r0 / r1 : Nat) : Int) * s1) := rfl
    by_cases hz : r1 = 0
    · subst hz
      rw [hunf, if_pos rfl, Nat.gcd_zero_right]
      exact h0.symm
    · rw [hunf, if_neg hz]
      have hmod : ((r0 % r1 : Nat) : Int) = (r0 : Int) - ((r0 / r1 : Nat) : Int) * r1 := by
        have h2 : ((r1 * (r0 / r1) + r0 % r1 : Nat) : Int) = (r0 : Int) := by
          rw [Nat.div_add_mod r0 r1]
        push_cast at h2 ⊢
        linarith
      have hrec : ((r0 % r1 : Nat) : Int) ≡ (s0 - ((r0 / r1 : Nat) : Int) * s1) * nn [ZMOD m] := by
        rw [hmod, sub_mul, mul_assoc]
        exact h0.sub ((h1.mul_left _))
      have hlt : r0 % r1 < f := by
        have := Nat.mod_lt r0 (Nat.pos_of_ne_zero hz)
        omega
      have hmain := ih r1 (r0 % r1) s1 (s0 - ((r0 / r1 : Nat) : Int) * s1) hlt h1 hrec
      have hg : Nat.gcd r0 r1 = Nat.gcd r1 (r0 % r1) := by
        rw [Nat.gcd_comm r0 r1, Nat.gcd_rec r1 r0, Nat.gcd_comm]
      rw [hg]
      exact hmain

/-- Specification of `inv_mod` on success: the result is the inverse of `n`
modulo `p`, in the canonical range. -/
theorem inv_mod_ok {n p v : Int} (hp : 0 < p) (h : inv_mod n p = .ok v) :
    v * n ≡ 1 [ZMOD p] ∧ 0 ≤ v ∧ v < p := by
  unfold inv_mod at h
  by_cases hg : Nat.gcd (n % p).toNat p.toNat = 1
  · simp only [hg, if_pos rfl] at h
    have hv : v = invGo ((n % p).toNat + 1) p.toNat (n % p).toNat 0 1 % p :=
      (Except.ok.injEq _ _).mp h.symm
    have hcast0 : ((p.toNat : Nat) : Int) ≡ 0 * n [ZMOD p] := by
      rw [Int.toNat_of_nonneg hp.le, zero_mul]
      show p % p = 0 % p
      simp
    have hcast1 : (((n % p).toNat : Nat) : Int) ≡ 1 * n [ZMOD p] := by
      rw [Int.toNat_of_nonneg (Int.emod_nonneg n hp.ne'), one_mul]
      show n % p % p = n % p
      exact Int.emod_emod_of_dvd n dvd_rfl
    have hspec := invGo_spec p n ((n % p).toNat + 1) p.toNat (n % p).toNat 0 1
      (Nat.lt_succ_self _) hcast0 hcast1
    rw [Nat.gcd_comm, hg] at hspec
    refine ⟨?_, ?_, ?_⟩
    · rw [hv]
      calc invGo ((n % p).toNat + 1) p.toNat (n % p).toNat 0 1 % p * n
          ≡ invGo ((n % p).toNat + 1) p.toNat (n % p).toNat 0 1 * n [ZMOD p] :=
            Int.ModEq.mul_right n (Int.emod_emod_of_dvd _ dvd_rfl)
        _ ≡ ((1 : Nat) : Int) [ZMOD p] := hspec
        _ = 1 := by norm_num
    · rw [hv]; exact Int.emod_nonneg _ hp.ne'
    · rw [hv]; exact Int.emod_lt_of_pos _ hp
  · simp [hg] at h

/-- `inv_mod` succeeds exactly when the gcd test passes. -/
theorem inv_mod_isOk {n p : Int} :
    (∃ v, inv_mod n p = .ok v) ↔ Nat.gcd (n % p).toNat p.toNat = 1 := by
  unfold inv_mod
  by_cases hg : Nat.gcd (n % p).toNat p.toNat = 1 <;> simp [hg]

theorem bitlenGo_bound (f : Nat) : ∀ n, n ≤ f → n < 2 ^ bitlenGo f n := by
  induction f with
  | zero =>
    intro n h
    have : n = 0 := by omega
    subst this
    simp [bitlenGo]
  | succ f ih =>
    intro n h
    by_cases hz : n = 0
    · subst hz; simp [bitlenGo]
    · have h2 : n / 2 ≤ f := by omega
      have := ih (n / 2) h2
      simp only [bitlenGo, hz, if_false]
      have h3 : (2 : Nat) ^ (bitlenGo f (n / 2) + 1) = 2 * 2 ^ bitlenGo f (n / 2) := by ring
      omega

theorem lt_two_pow_bitlen (n : Nat) : n < 2 ^ bitlen n :=
  bitlenGo_bound n n le_rfl

/-! ### The Pratt certificate checker -/

theorem powMod_ne_one_zmod {a e p : Nat} (hp : 2 ≤ p) (h : powMod a e p ≠ 1) :
    (a : ZMod p) ^ e ≠ 1 := by
  intro hcontra
  apply h
  have hv : ((powMod a e p : Nat) : ZMod p) = ((1 : Nat) : ZMod p) := by
    rw [powMod_cast, hcontra, Nat.cast_one]
  have hmods := (ZMod.natCast_eq_natCast_iff' _ _ _).mp hv
  rwa [Nat.mod_eq_of_lt (powMod_lt a e p (by omega)), Nat.mod_eq_of_lt (by omega)] at hmods

theorem prattCheck_root {p a : Nat} (hp : 2 ≤ p) :
    ∀ L : List (Nat × Nat), prattCheck p a L →
      ∀ q : Nat, Nat.Prime q → q ∣ prodPP L → (a : ZMod p) ^ ((p - 1) / q) ≠ 1 := by
  intro L
  induction L with
  | nil =>
    intro _ q hq hdvd
    have : q = 1 := Nat.dvd_one.mp hdvd
    have := hq.one_lt
    omega
  | cons qe rest ih =>
    intro hcheck q hq hdvd
    rcases (Nat.Prime.dvd_mul hq).mp hdvd with hleft | hright
    · have hq1 : q ∣ qe.1 := Nat.Prime.dvd_of_dvd_pow hq hleft
      have : q = qe.1 := (Nat.prime_dvd_prime_iff_eq hq hcheck.1).mp hq1
      subst this
      exact powMod_ne_one_zmod hp hcheck.2.1
    · exact ih hcheck.2.2 q hq hright

/-- Lucas–Pratt primality: a witness `a` of order `p − 1`, certified by a full
factorisation of `p − 1` into primes, proves `p` prime. -/
theorem prime_of_pratt (p a : Nat) (L : List (Nat × Nat)) (hp : 2 ≤ p)
    (hfac : prodPP L = p - 1) (hfermat : powMod a (p - 1) p = 1)
    (hcheck : prattCheck p a L) : Nat.Prime p := by
  apply lucas_primality p (a : ZMod p)
  · rw [← powMod_cast a (p - 1) p, hfermat, Nat.cast_one]
  · intro q hq hdvd
    exact prattCheck_root hp L hcheck q hq (hfac ▸ hdvd)

/-! ### Primality of small primes and of the Pratt-certified chain up to
secp256r1's field modulus `p` and group order `n` -/

theorem prime_2 : Nat.Prime 2 := by norm_num

theorem prime_3 : Nat.Prime 3 := by norm_num

theorem prime_5 : Nat.Prime 5 := by norm_num

theorem prime_7 : Nat.Prime 7 := by norm_num

theorem prime_11 : Nat.Prime 11 := by norm_num

theorem prime_13 : Nat.Prime 13 := by norm_num

theorem prime_17 : Nat.Prime 17 := by norm_num

theorem prime_19 : Nat.Prime 19 := by norm_num

theorem prime_23 : Nat.Prime 23 := by norm_num

theorem prime_29 : Nat.Prime 29 := by norm_num

theorem prime_31 : Nat.Prime 31 := by norm_num

theorem prime_37 : Nat.Prime 37 := by norm_num

theorem prime_cert_0 : Nat.Prime 41 :=
  prime_of_pratt 41 6 [(2, 3), (5, 1)] (by norm_num) (by decide) (by decide)
    ⟨prime_2, by decide, prime_5, by decide, trivial⟩

theorem prime_cert_1 : Nat.Prime 43 :=
  prime_of_pratt 43 3 [(2, 1), (3, 1), (7, 1)] (by norm_num) (by decide) (by decide)
    ⟨prime_2, by decide, prime_3, by decide, prime_7, by decide, trivial⟩

theorem prime_cert_2 : Nat.Prime 53 :=
  prime_of_pratt 53 2 [(2, 2), (13, 1)] (by norm_num) (by decide) (by decide)
    ⟨prime_2, by decide, prime_13, by decide, trivial⟩

theorem prime_cert_3 : Nat.Prime 71 :=
  prime_of_pratt 71 7 [(2, 1), (5, 1), (7, 1)] (by norm_num) (by decide) (by decide)
    ⟨prime_2, by decide, prime_5, by decide, prime_7, by decide, trivial⟩

theorem prime_cert_4 : Nat.Prime 97 :=
  prime_of_pratt 97 5 [(2, 5), (3, 1)] (by norm_num) (by decide) (by decide)
    ⟨prime_2, by decide, prime_3, by decide, trivial⟩

theorem prime_cert_5 : Nat.Prime 107 :=
  prime_of_pratt 107 2 [(2, 1), (53, 1)] (by norm_num) (by decide) (by decide)
    ⟨prime_2, by decide, prime_cert_2, by decide, trivial⟩

theorem prime_cert_6 : Nat.Prime 127 :=
  prime_of_pratt 127 3 [(2, 1), (3, 2), (7, 1)] (by norm_num) (by decide) (by decide)
    ⟨prime_2, by decide, prime_3, by decide, prime_7, by decide, trivial⟩

theorem prime_cert_7 : Nat.Prime 131 :=
  prime_of_pratt 131 2 [(2, 1), (5, 1), (13, 1)] (by norm_num) (by decide) (by decide)
    ⟨prime_2, by decide, prime_5, by decide, prime_13, by decide, trivial⟩

theorem prime_cert_8 : Nat.Prime 151 :=
  prime_of_pratt 151 6 [(2, 1), (3, 1), (5, 2)] (by norm_num) (by decide) (by decide)
    ⟨prime_2, by decide, prime_3, by decide, prime_5, by decide, trivial⟩

theorem prime_cert_9 : Nat.Prime 157 :=
  prime_of_pratt 157 5 [(2, 2), (3, 1), (13, 1)] (by norm_num) (by decide) (by decide)
    ⟨prime_2, by decide, prime_3, by decide, prime_13, by decide, trivial⟩

theorem prime_cert_10 : Nat.Prime 173 :=
  prime_of_pratt 173 2 [(2, 2), (43, 1)] (by norm_num) (by decide) (by decide)
    ⟨prime_2, by decide, prime_cert_1, by decide, trivial⟩

theorem prime_cert_11 : Nat.Prime 181 :=
  prime_of_pratt 181 2 [(2, 2), (3, 2), (5, 1)] (by norm_num) (by decide) (by decide)
    ⟨prime_2, by decide, prime_3, by decide, prime_5, by decide, trivial⟩

theorem prime_cert_12 : Nat.Prime 197 :=
  prime_of_pratt 197 2 [(2, 2), (7, 2)] (by norm_num) (by decide) (by decide)
    ⟨prime_2, by decide, prime_7, by decide, trivial⟩

theorem prime_cert_13 : Nat.Prime 229 :=
  prime_of_pratt 229 6 [(2, 2), (3, 1), (19, 1)] (by norm_num) (by decide) (by decide)
    ⟨prime_2, by decide, prime_3, by decide, prime_19, by decide, trivial⟩

theorem prime_cert_14 : Nat.Prime 241 :=
  prime_of_pratt 241 7 [(2, 4), (3, 1), (5, 1)] (by norm_num) (by decide) (by decide)
    ⟨prime_2, by decide, prime_3, by decide, prime_5, by decide, trivial⟩

theorem prime_cert_15 : Nat.Prime 257 :=
  prime_of_pratt 257 3 [(2, 8)] (by norm_num) (by decide) (by decide)
    ⟨prime_2, by decide, trivial⟩

theorem prime_cert_16 : Nat.Prime 263 :=
  prime_of_pratt 263 5 [(2, 1), (131, 1)] (by norm_num) (by decide) (by decide)
    ⟨prime_2, by decide, prime_cert_7, by decide, trivial⟩

theorem prime_cert_17 : Nat.Prime 311 :=
  prime_of_pratt 311 17 [(2, 1), (5, 1), (31, 1)] (by norm_num) (by decide) (by decide)
    ⟨prime_2, by decide, prime_5, by decide, prime_31, by decide, trivial⟩

theorem prime_cert_18 : Nat.Prime 313 :=
  prime_of_pratt 313 10 [(2, 3), (3, 1), (13, 1)] (by norm_num) (by decide) (by decide)
    ⟨prime_2, by decide, prime_3, by decide, prime_13, by decide, trivial⟩

theorem prime_cert_19 : Nat.Prime 337 :=
  prime_of_pratt 337 10 [(2, 4), (3, 1), (7, 1)] (by norm_num) (by decide) (by decide)
    ⟨prime_2, by decide, prime_3, by decide, prime_7, by decide, trivial⟩

theorem prime_cert_20 : Nat.Prime 373 :=
  prime_of_pratt 373 2 [(2, 2), (3, 1), (31, 1)] (by norm_num) (by decide) (by decide)
    ⟨prime_2, by decide, prime_3, by decide, prime_31, by decide, trivial⟩

theorem prime_cert_21 : Nat.Prime 641 :=
  prime_of_pratt 641 3 [(2, 7), (5, 1)] (by norm_num) (by decide) (by decide)
    ⟨prime_2, by decide, prime_5, by decide, trivial⟩

theorem prime_cert_22 : Nat.Prime 661 :=
  prime_of_pratt 661 2 [(2, 2), (3, 1), (5, 1), (11, 1)] (by norm_num) (by decide) (by decide)
    ⟨prime_2, by decide, prime_3, by decide, prime_5, by decide, prime_11, by decide, trivial⟩

theorem prime_cert_23 : Nat.Prime 727 :=
  prime_of_pratt 727 5 [(2, 1), (3, 1), (11, 2)] (by norm_num) (by decide) (by decide)
    ⟨prime_2, by decide, prime_3, by decide, prime_11, by decide, trivial⟩

theorem prime_cert_24 : Nat.Prime 757 :=
  prime_of_pratt 757 2 [(2, 2), (3, 3), (7, 1)] (by norm_num) (by decide) (by decide)
    ⟨prime_2, by decide, prime_3, by decide, prime_7, by decide, trivial⟩

theorem prime_cert_25 : Nat.Prime 919 :=
  prime_of_pratt 919 7 [(2, 1), (3, 3), (17, 1)] (by norm_num) (by decide) (by decide)
    ⟨prime_2, by decide, prime_3, by decide, prime_17, by decide, trivial⟩

theorem prime_cert_26 : Nat.Prime 1087 :=
  prime_of_pratt 1087 3 [(2, 1), (3, 1), (181, 1)] (by norm_num) (by decide) (by decide)
    ⟨prime_2, by decide, prime_3, by decide, prime_cert_11, by decide, trivial⟩

theorem prime_cert_27 : Nat.Prime 1201 :=
  prime_of_pratt 1201 11 [(2, 4), (3, 1), (5, 2)] (by norm_num) (by decide) (by decide)
    ⟨prime_2, by decide, prime_3, by decide, prime_5, by decide, trivial⟩

theorem prime_cert_28 : Nat.Prime 1297 :=
  prime_of_pratt 1297 10 [(2, 4), (3, 4)] (by norm_num) (by decide) (by decide)
    ⟨prime_2, by decide, prime_3, by decide, trivial⟩

theorem prime_cert_29 : Nat.Prime 1511 :=
  prime_of_pratt 1511 11 [(2, 1), (5, 1), (151, 1)] (by norm_num) (by decide) (by decide)
    ⟨prime_2, by decide, prime_5, by decide, prime_cert_8, by decide, trivial⟩

theorem prime_cert_30 : Nat.Prime 1531 :=
  prime_of_pratt 1531 2 [(2, 1), (3, 2), (5, 1), (17, 1)] (by norm_num) (by decide) (by decide)
    ⟨prime_2, by decide, prime_3, by decide, prime_5, by decide, prime_17, by decide, trivial⟩

theorem prime_cert_31 : Nat.Prime 2411 :=
  prime_of_pratt 2411 6 [(2, 1), (5, 1), (241, 1)] (by norm_num) (by decide) (by decide)
    ⟨prime_2, by decide, prime_5, by decide, prime_cert_14, by decide, trivial⟩

theorem prime_cert_32 : Nat.Prime 3023 :=
  prime_of_pratt 3023 5 [(2, 1), (1511, 1)] (by norm_num) (by decide) (by decide)
    ⟨prime_2, by decide, prime_cert_29, by decide, trivial⟩

theorem prime_cert_33 : Nat.Prime 3407 :=
  prime_of_pratt 3407 5 [(2, 1), (13, 1), (131, 1)] (by norm_num) (by decide) (by decide)
    ⟨prime_2, by decide, prime_13, by decide, prime_cert_7, by decide, trivial⟩

theorem prime_cert_34 : Nat.Prime 3677 :=
  prime_of_pratt 3677 2 [(2, 2), (919, 1)] (by norm_num) (by decide) (by decide)
    ⟨prime_2, by decide, prime_cert_25, by decide, trivial⟩

theorem prime_cert_35 : Nat.Prime 3769 :=
  prime_of_pratt 3769 7 [(2, 3), (3, 1), (157, 1)] (by norm_num) (by decide) (by decide)
    ⟨prime_2, by decide, prime_3, by decide, prime_cert_9, by decide, trivial⟩

theorem prime_cert_36 : Nat.Prime 4349 :=
  prime_of_pratt 4349 2 [(2, 2), (1087, 1)] (by norm_num) (by decide) (by decide)
    ⟨prime_2, by decide, prime_cert_26, by decide, trivial⟩

theorem prime_cert_37 : Nat.Prime 9547 :=
  prime_of_pratt 9547 2 [(2, 1), (3, 1), (37, 1), (43, 1)] (by norm_num) (by decide) (by decide)
    ⟨prime_2, by decide, prime_3, by decide, prime_37, by decide, prime_cert_1, by decide, trivial⟩

theorem prime_cert_38 : Nat.Prime 16879 :=
  prime_of_pratt 16879 3 [(2, 1), (3, 1), (29, 1), (97, 1)] (by norm_num) (by decide) (by decide)
    ⟨prime_2, by decide, prime_3, by decide, prime_29, by decide, prime_cert_4, by decide, trivial⟩

theorem prime_cert_39 : Nat.Prime 17449 :=
  prime_of_pratt 17449 14 [(2, 3), (3, 1), (727, 1)] (by norm_num) (by decide) (by decide)
    ⟨prime_2, by decide, prime_3, by decide, prime_cert_23, by decide, trivial⟩

theorem prime_cert_40 : Nat.Prime 18169 :=
  prime_of_pratt 18169 11 [(2, 3), (3, 1), (757, 1)] (by norm_num) (by decide) (by decide)
    ⟨prime_2, by decide, prime_3, by decide, prime_cert_24, by decide, trivial⟩

theorem prime_cert_41 : Nat.Prime 38189 :=
  prime_of_pratt 38189 2 [(2, 2), (9547, 1)] (by norm_num) (by decide) (by decide)
    ⟨prime_2, by decide, prime_cert_37, by decide, trivial⟩

theorem prime_cert_42 : Nat.Prime 65537 :=
  prime_of_pratt 65537 3 [(2, 16)] (by norm_num) (by decide) (by decide)
    ⟨prime_2, by decide, trivial⟩

theorem prime_cert_43 : Nat.Prime 78283 :=
  prime_of_pratt 78283 3 [(2, 1), (3, 2), (4349, 1)] (by norm_num) (by decide) (by decide)
    ⟨prime_2, by decide, prime_3, by decide, prime_cert_36, by decide, trivial⟩

theorem prime_cert_44 : Nat.Prime 104471 :=
  prime_of_pratt 104471 11 [(2, 1), (5, 1), (31, 1), (337, 1)] (by norm_num) (by decide) (by decide)
    ⟨prime_2, by decide, prime_5, by decide, prime_31, by decide, prime_cert_19, by decide, trivial⟩

theorem prime_cert_45 : Nat.Prime 126241 :=
  prime_of_pratt 126241 7 [(2, 5), (3, 1), (5, 1), (263, 1)] (by norm_num) (by decide) (by decide)
    ⟨prime_2, by decide, prime_3, by decide, prime_5, by decide, prime_cert_16, by decide, trivial⟩

theorem prime_cert_46 : Nat.Prime 155317 :=
  prime_of_pratt 155317 5 [(2, 2), (3, 1), (7, 1), (43, 2)] (by norm_num) (by decide) (by decide)
    ⟨prime_2, by decide, prime_3, by decide, prime_7, by decide, prime_cert_1, by decide, trivial⟩

theorem prime_cert_47 : Nat.Prime 490463 :=
  prime_of_pratt 490463 14 [(2, 1), (7, 1), (53, 1), (661, 1)] (by norm_num) (by decide) (by decide)
    ⟨prime_2, by decide, prime_7, by decide, prime_cert_2, by decide, prime_cert_22, by decide, trivial⟩

theorem prime_cert_48 : Nat.Prime 704251 :=
  prime_of_pratt 704251 2 [(2, 1), (3, 2), (5, 3), (313, 1)] (by norm_num) (by decide) (by decide)
    ⟨prime_2, by decide, prime_3, by decide, prime_5, by decide, prime_cert_18, by decide, trivial⟩

theorem prime_cert_49 : Nat.Prime 3969899 :=
  prime_of_pratt 3969899 2 [(2, 1), (19, 1), (104471, 1)] (by norm_num) (by decide) (by decide)
    ⟨prime_2, by decide, prime_19, by decide, prime_cert_44, by decide, trivial⟩

theorem prime_cert_50 : Nat.Prime 6700417 :=
  prime_of_pratt 6700417 5 [(2, 7), (3, 1), (17449, 1)] (by norm_num) (by decide) (by decide)
    ⟨prime_2, by decide, prime_3, by decide, prime_cert_39, by decide, trivial⟩

theorem prime_cert_51 : Nat.Prime 9350987 :=
  prime_of_pratt 9350987 2 [(2, 1), (17, 1), (229, 1), (1201, 1)] (by norm_num) (by decide) (by decide)
    ⟨prime_2, by decide, prime_17, by decide, prime_cert_13, by decide, prime_cert_27, by decide, trivial⟩

theorem prime_cert_52 : Nat.Prime 187019741 :=
  prime_of_pratt 187019741 2 [(2, 2), (5, 1), (9350987, 1)] (by norm_num) (by decide) (by decide)
    ⟨prime_2, by decide, prime_5, by decide, prime_cert_51, by decide, trivial⟩

theorem prime_cert_53 : Nat.Prime 191039911 :=
  prime_of_pratt 191039911 3 [(2, 1), (3, 1), (5, 1), (41, 1), (155317, 1)] (by norm_num) (by decide) (by decide)
    ⟨prime_2, by decide, prime_3, by decide, prime_5, by decide, prime_cert_0, by decide, prime_cert_46, by decide, trivial⟩

theorem prime_cert_54 : Nat.Prime 204061199 :=
  prime_of_pratt 204061199 11 [(2, 1), (11, 1), (23, 1), (107, 1), (3769, 1)] (by norm_num) (by decide) (by decide)
    ⟨prime_2, by decide, prime_11, by decide, prime_23, by decide, prime_cert_5, by decide, prime_cert_35, by decide, trivial⟩

theorem prime_cert_55 : Nat.Prime 311245691 :=
  prime_of_pratt 311245691 2 [(2, 1), (5, 1), (7, 1), (17, 1), (29, 2), (311, 1)] (by norm_num) (by decide) (by decide)
    ⟨prime_2, by decide, prime_5, by decide, prime_7, by decide, prime_17, by decide, prime_29, by decide, prime_cert_17, by decide, trivial⟩

theorem prime_cert_56 : Nat.Prime 622491383 :=
  prime_of_pratt 622491383 5 [(2, 1), (311245691, 1)] (by norm_num) (by decide) (by decide)
    ⟨prime_2, by decide, prime_cert_55, by decide, trivial⟩

theorem prime_cert_57 : Nat.Prime 34282281433 :=
  prime_of_pratt 34282281433 17 [(2, 3), (3, 1), (7, 1), (204061199, 1)] (by norm_num) (by decide) (by decide)
    ⟨prime_2, by decide, prime_3, by decide, prime_7, by decide, prime_cert_54, by decide, trivial⟩

theorem prime_cert_58 : Nat.Prime 66417393611 :=
  prime_of_pratt 66417393611 6 [(2, 1), (5, 1), (53, 1), (173, 1), (197, 1), (3677, 1)] (by norm_num) (by decide) (by decide)
    ⟨prime_2, by decide, prime_5, by decide, prime_cert_2, by decide, prime_cert_10, by decide, prime_cert_12, by decide, prime_cert_34, by decide, trivial⟩

theorem prime_cert_59 : Nat.Prime 1002328039319 :=
  prime_of_pratt 1002328039319 19 [(2, 1), (126241, 1), (3969899, 1)] (by norm_num) (by decide) (by decide)
    ⟨prime_2, by decide, prime_cert_45, by decide, prime_cert_49, by decide, trivial⟩

theorem prime_cert_60 : Nat.Prime 11290956913871 :=
  prime_of_pratt 11290956913871 13 [(2, 1), (5, 1), (17, 1), (66417393611, 1)] (by norm_num) (by decide) (by decide)
    ⟨prime_2, by decide, prime_5, by decide, prime_17, by decide, prime_cert_58, by decide, trivial⟩

theorem prime_cert_61 : Nat.Prime 46076956964474543 :=
  prime_of_pratt 46076956964474543 5 [(2, 1), (23, 1), (18169, 1), (78283, 1), (704251, 1)] (by norm_num) (by decide) (by decide)
    ⟨prime_2, by decide, prime_23, by decide, prime_cert_40, by decide, prime_cert_43, by decide, prime_cert_48, by decide, trivial⟩

theorem prime_cert_62 : Nat.Prime 208150935158385979 :=
  prime_of_pratt 208150935158385979 2 [(2, 1), (3, 1), (11, 1), (43, 1), (127, 1), (3023, 1), (191039911, 1)] (by norm_num) (by decide) (by decide)
    ⟨prime_2, by decide, prime_3, by decide, prime_11, by decide, prime_cert_1, by decide, prime_cert_6, by decide, prime_cert_32, by decide, prime_cert_53, by decide, trivial⟩

theorem prime_cert_63 : Nat.Prime 2624747550333869278416773953 :=
  prime_of_pratt 2624747550333869278416773953 7 [(2, 6), (3, 2), (1297, 1), (16879, 1), (208150935158385979, 1)] (by norm_num) (by decide) (by decide)
    ⟨prime_2, by decide, prime_3, by decide, prime_cert_28, by decide, prime_cert_38, by decide, prime_cert_62, by decide, trivial⟩

theorem prime_cert_64 : Nat.Prime 774023187263532362759620327192479577272145303 :=
  prime_of_pratt 774023187263532362759620327192479577272145303 3 [(2, 1), (3, 2), (2411, 1), (34282281433, 1), (11290956913871, 1), (46076956964474543, 1)] (by norm_num) (by decide) (by decide)
    ⟨prime_2, by decide, prime_3, by decide, prime_cert_31, by decide, prime_cert_57, by decide, prime_cert_60, by decide, prime_cert_61, by decide, trivial⟩

theorem prime_cert_65 : Nat.Prime 835945042244614951780389953367877943453916927241 :=
  prime_of_pratt 835945042244614951780389953367877943453916927241 11 [(2, 3), (3, 3), (5, 1), (774023187263532362759620327192479577272145303, 1)] (by norm_num) (by decide) (by decide)
    ⟨prime_2, by decide, prime_3, by decide, prime_5, by decide, prime_cert_64, by decide, trivial⟩

theorem n256_prime : Nat.Prime 115792089210356248762697446949407573529996955224135760342422259061068512044369 :=
  prime_of_pratt 115792089210356248762697446949407573529996955224135760342422259061068512044369 7 [(2, 4), (3, 1), (71, 1), (131, 1), (373, 1), (3407, 1), (17449, 1), (38189, 1), (187019741, 1), (622491383, 1), (1002328039319, 1), (2624747550333869278416773953, 1)] (by norm_num) (by decide) (by decide)
    ⟨prime_2, by decide, prime_3, by decide, prime_cert_3, by decide, prime_cert_7, by decide, prime_cert_20, by decide, prime_cert_33, by decide, prime_cert_39, by decide, prime_cert_41, by decide, prime_cert_52, by decide, prime_cert_56, by decide, prime_cert_59, by decide, prime_cert_63, by decide, trivial⟩

theorem secp256r1_p_val :
    secp256r1.p =
      115792089210356248762697446949407573530086143415290314195533631308867097853951 := by
  decide

theorem secp256r1_n_val :
    secp256r1.n =
      115792089210356248762697446949407573529996955224135760342422259061068512044369 := by
  decide

theorem secp256r1_a_val :
    secp256r1.a =
      115792089210356248762697446949407573530086143415290314195533631308867097853948 := by
  decide

theorem secp256r1_b_val :
    secp256r1.b =
      41058363725152142129326129780047268409114441015993725554835256314039467401291 := by
  decide

theorem basepointG_val :
    basepointG =
      (48439561293906451759052585252797914202762949526041747995844080717082404635286,
       36134250956749795798585127919587881956611106672985015071877198253568414405109) := by
  decide

theorem p256_prime : Nat.Prime 115792089210356248762697446949407573530086143415290314195533631308867097853951 :=
  prime_of_pratt 115792089210356248762697446949407573530086143415290314195533631308867097853951 6 [(2, 1), (3, 1), (5, 2), (17, 1), (257, 1), (641, 1), (1531, 1), (65537, 1), (490463, 1), (6700417, 1), (835945042244614951780389953367877943453916927241, 1)] (by norm_num) (by decide) (by decide)
    ⟨prime_2, by decide, prime_3, by decide, prime_5, by decide, prime_17, by decide, prime_cert_15, by decide, prime_cert_21, by decide, prime_cert_30, by decide, prime_cert_42, by decide, prime_cert_47, by decide, prime_cert_50, by decide, prime_cert_65, by decide, trivial⟩

/-! ### Claim C5: private-scalar range of create_key_pair -/

/-- The claim's range `[1, p−2]` fails at the largest randomness output:
`secrets.randbelow(p − 1)` can return `p − 2`, making `d = p − 1`. -/
theorem c5_counterexample :
    ¬ (1 ≤ (create_key_pair secp256r1 basepointG (secp256r1.p.toNat - 2)).1 ∧
       (create_key_pair secp256r1 basepointG (secp256r1.p.toNat - 2)).1 ≤ secp256r1.p - 2) := by
  intro h
  have hd : (create_key_pair secp256r1 basepointG (secp256r1.p.toNat - 2)).1 =
      ((secp256r1.p.toNat - 2 : Nat) : Int) + 1 := rfl
  rw [hd, secp256r1_p_val] at h
  have := h.2
  norm_num at this

/-- Claim C5 (corrected): every key pair `(d, Q)` returned by
`create_key_pair`, for every value `rand ∈ [0, p − 2]` supplied by
`secrets.randbelow(p − 1)`, has `d ∈ [1, p − 1]` (not `[1, p − 2]` as
claimed) and `Q` computed as `d * G`. -/
theorem c5_amended (rand : Nat) (h : (rand : Int) ≤ secp256r1.p - 2) :
    1 ≤ (create_key_pair secp256r1 basepointG rand).1 ∧
    (create_key_pair secp256r1 basepointG rand).1 ≤ secp256r1.p - 1 ∧
    (create_key_pair secp256r1 basepointG rand).2 =
      pointRMul secp256r1 (create_key_pair secp256r1 basepointG rand).1 basepointG := by
  have hd : (create_key_pair secp256r1 basepointG rand).1 = (rand : Int) + 1 := rfl
  refine ⟨?_, ?_, rfl⟩
  · rw [hd]; omega
  · rw [hd]; omega

/-- Witness for `c5_amended` at the smallest randomness output `rand = 0`. -/
theorem c5_amended_witness :
    1 ≤ (create_key_pair secp256r1 basepointG 0).1 ∧
    (create_key_pair secp256r1 basepointG 0).1 ≤ secp256r1.p - 1 ∧
    (create_key_pair secp256r1 basepointG 0).2 =
      pointRMul secp256r1 (create_key_pair secp256r1 basepointG 0).1 basepointG :=
  c5_amended 0 (by rw [secp256r1_p_val]; norm_num)

/-! ### Claim C6: negation -/

/-- The claim's statement fails already at the point `(1, 1)` of the reference
curve's parameter set: `__neg__` yields the raw integer pair `(1, -1)`, not
`(1, (−1) mod p)`. -/
theorem c6_counterexample :
    pointNeg (1, 1) ≠ (1, (-(1 : Int)) % secp256r1.p) := by
  intro h
  have h2 : (-(1 : Int) : Int) = (-(1 : Int)) % secp256r1.p := congrArg Prod.snd h
  rw [secp256r1_p_val] at h2
  norm_num at h2

/-- Claim C6 (corrected): for every point `P` with coordinates in `[0, p)`,
`__neg__` returns `(x, −y)` with the *integer* negation of `y` (no reduction
modulo `p`; this equals `(x, (−y) mod p)` only when `y = 0`), and any point
with `y = 0` — in particular the `(0, 0)` infinity sentinel — is mapped to
itself. -/
theorem c6_amended (P : Int × Int)
    (h1 : 0 ≤ P.1 ∧ P.1 < secp256r1.p) (h2 : 0 ≤ P.2 ∧ P.2 < secp256r1.p) :
    pointNeg P = (P.1, -P.2) ∧ (P.2 = 0 → pointNeg P = P) := by
  constructor
  · rfl
  · intro hy
    show (P.1, -P.2) = P
    rw [hy, neg_zero]
    exact Prod.ext rfl hy.symm

/-- Witness for `c6_amended` at the point `(2, 3)`. -/
theorem c6_amended_witness :
    pointNeg (2, 3) = ((2 : Int), -(3 : Int)) ∧ ((3 : Int) = 0 → pointNeg (2, 3) = (2, 3)) :=
  c6_amended (2, 3) (by rw [secp256r1_p_val]; norm_num) (by rw [secp256r1_p_val]; norm_num)

/-! ### Claim C8: verify_sign range rejection -/

/-- Claim C8: `verify_sign` returns `false` whenever `r` or `s` lies outside
`[1, n − 1]`, for any curve parameters, hash, public key and message; in
particular `r` or `s` equal to `0` or to `n` is always rejected, since `0 < 1`
and `n > n − 1`. -/
theorem c8_range_reject (C : CurveParams) (hf : List Nat → String) (G Q : Int × Int)
    (msg : List Nat) (r s : Int)
    (h : ¬ (1 ≤ r ∧ r ≤ C.n - 1) ∨ ¬ (1 ≤ s ∧ s ≤ C.n - 1)) :
    verify_sign C G hf Q msg (r, s) = .ok false := by
  unfold verify_sign
  rcases h with h | h
  · rw [if_pos h]; rfl
  · by_cases h1 : 1 ≤ r ∧ r ≤ C.n - 1
    · rw [if_neg (not_not_intro h1), if_pos h]; rfl
    · rw [if_pos h1]; rfl

/-- Witness for `c8_range_reject`: `r = 0` (and `s = n`) on the reference
curve with a trivial hash and key. -/
theorem c8_range_reject_witness :
    verify_sign secp256r1 basepointG (fun _ => "00") (0, 0) [] (0, secp256r1.n) =
      .ok false :=
  c8_range_reject secp256r1 (fun _ => "00") basepointG (0, 0) [] 0 secp256r1.n
    (Or.inl (by intro h; omega))

/-! ### Claim C10: coordinate ranges are preserved by the group operations -/

theorem bind_ok_eq {α β : Type} (a : α) (f : α → Except PyError β) :
    (Except.ok a >>= f) = f a := rfl

theorem bind_error_eq {α β : Type} (e : PyError) (f : α → Except PyError β) :
    ((Except.error e : Except PyError α) >>= f) = .error e := rfl

theorem pointAdd_range {C : CurveParams} {P Q R : Int × Int} (hp : 0 < C.p)
    (hP : coordsInRange C P) (hQ : coordsInRange C Q)
    (h : pointAdd C P Q = .ok R) : coordsInRange C R := by
  have hmod : ∀ x : Int, 0 ≤ x % C.p ∧ x % C.p < C.p := fun x =>
    ⟨Int.emod_nonneg x (by omega), Int.emod_lt_of_pos x hp⟩
  unfold pointAdd at h
  by_cases h1 : P.1 = P.2 ∧ P.2 = 0
  · rw [if_pos h1] at h
    cases h
    exact hQ
  · rw [if_neg h1] at h
    by_cases h2 : Q.1 = Q.2 ∧ Q.2 = 0
    · rw [if_pos h2] at h
      cases h
      exact hP
    · rw [if_neg h2] at h
      by_cases h3 : P.1 = Q.1
      · rw [if_pos h3] at h
        by_cases h4 : P.2 = Q.2
        · rw [if_pos h4] at h
          cases hinv : inv_mod (2 * P.2) C.p with
          | error e => rw [hinv, bind_error_eq] at h; cases h
          | ok i =>
            rw [hinv, bind_ok_eq] at h
            cases h
            exact ⟨(hmod _).1, (hmod _).2, (hmod _).1, (hmod _).2⟩
        · rw [if_neg h4] at h
          cases h
          exact ⟨le_refl 0, hp, le_refl 0, hp⟩
      · rw [if_neg h3] at h
        cases hinv : inv_mod (Q.1 - P.1) C.p with
        | error e => rw [hinv, bind_error_eq] at h; cases h
        | ok i =>
          rw [hinv, bind_ok_eq] at h
          cases h
          exact ⟨(hmod _).1, (hmod _).2, (hmod _).1, (hmod _).2⟩

theorem rmulGo_range {C : CurveParams} {P : Int × Int} {k : Nat} (hp : 0 < C.p)
    (hP : coordsInRange C P) :
    ∀ (s : Nat) (acc R : Int × Int), coordsInRange C acc →
      rmulGo C P k s acc = .ok R → coordsInRange C R := by
  intro s
  induction s with
  | zero =>
    intro acc R hacc h
    cases h
    exact hacc
  | succ s ih =>
    intro acc R hacc h
    simp only [rmulGo] at h
    cases hd : pointAdd C acc acc with
    | error e => rw [hd, bind_error_eq] at h; cases h
    | ok d =>
      rw [hd, bind_ok_eq] at h
      have hdr : coordsInRange C d := pointAdd_range hp hacc hacc hd
      by_cases hb : (k >>> s) % 2 = 1
      · rw [if_pos hb] at h
        cases ha : pointAdd C d P with
        | error e => rw [ha, bind_error_eq] at h; cases h
        | ok a2 =>
          rw [ha, bind_ok_eq] at h
          exact ih a2 R (pointAdd_range hp hdr hP ha) h
      · rw [if_neg hb, bind_ok_eq] at h
        exact ih d R hdr h

/-- Claim C10: for any two points of the same curve with stored coordinates in
`[0, p)` (with `p > 0`), any point returned by `__add__` again has both
coordinates in `[0, p)`, and likewise any point returned by `__rmul__` with a
scalar `k ≥ 0`. -/
theorem c10_coords_in_range :
    (∀ (C : CurveParams) (P Q R : Int × Int), 0 < C.p →
        coordsInRange C P → coordsInRange C Q →
        pointAdd C P Q = .ok R → coordsInRange C R) ∧
    (∀ (C : CurveParams) (k : Nat) (P R : Int × Int), 0 < C.p →
        coordsInRange C P → rmulNat C k P = .ok R → coordsInRange C R) := by
  constructor
  · intro C P Q R hp hP hQ h
    exact pointAdd_range hp hP hQ h
  · intro C k P R hp hP h
    unfold rmulNat at h
    by_cases hk : k = 0
    · rw [if_pos hk] at h
      cases h
      exact ⟨le_refl 0, hp, le_refl 0, hp⟩
    · rw [if_neg hk] at h
      exact rmulGo_range hp hP (bitlen k) (0, 0) R ⟨le_refl 0, hp, le_refl 0, hp⟩ h

/-- Witness for `c10_coords_in_range`: instantiated on the tiny test curve at
a concrete addition and a concrete scalar multiple. -/
theorem c10_coords_in_range_witness :
    coordsInRange tiny (12, 19) ∧ coordsInRange tiny (9, 16) :=
  ⟨c10_coords_in_range.1 tiny (0, 1) (1, 7) (12, 19) (by decide)
      ⟨by decide, by decide, by decide, by decide⟩
      ⟨by decide, by decide, by decide, by decide⟩ (by decide),
   c10_coords_in_range.2 tiny 13 (0, 1) (9, 16) (by decide)
      ⟨by decide, by decide, by decide, by decide⟩ (by decide)⟩

/-! ### Claim C4: decoding the single byte 0x00 -/

theorem bitlen_pos {n : Nat} (h : 1 ≤ n) : 1 ≤ bitlen n := by
  obtain ⟨k, rfl⟩ : ∃ k, n = k + 1 := ⟨n - 1, by omega⟩
  have hunf : bitlen (k + 1) = bitlenGo k ((k + 1) / 2) + 1 := rfl
  omega

theorem mlen_pos {p : Int} (hp : 2 ≤ p) : 1 ≤ mlen p := by
  have h1 : 1 ≤ p.toNat - 1 := by omega
  have := bitlen_pos h1
  unfold mlen ceilLog2
  omega

/-- Claim C4 (the code contradicts it): the dead comparison
`octets[0] == "00"` (an `int` against a `str`) makes the infinity branch
unreachable, so decoding `"00"` raises `ValueError("Invalid octet string
length")` for every parameter set with `p ≥ 2` instead of returning the point
at infinity. -/
theorem c4_decode_zero_value_error (C : CurveParams) (hp : 2 ≤ C.p) :
    octet_str_to_point "00" C = .error (.valueError "Invalid octet string length") := by
  have hm := mlen_pos hp
  have h0 : octet_str_to_octet_list "00" = .ok [0] := rfl
  unfold octet_str_to_point
  rw [h0, bind_ok_eq]
  have hc1 : ¬ ([0].length = 1 ∧ (octetEqualsStr00 ([0].headD 0) = true)) := by
    intro hcon
    simpa [octetEqualsStr00] using hcon.2
  rw [if_neg hc1]
  have hc2 : ¬ ([0].length = mlen C.p + 1) := by
    simp only [List.length_singleton]
    omega
  rw [if_neg hc2]
  have hc3 : ¬ ([0].length = 2 * mlen C.p + 1) := by
    simp only [List.length_singleton]
    omega
  rw [if_neg hc3]

/-- Witness for `c4_decode_zero_value_error` on the reference curve. -/
theorem c4_decode_zero_value_error_witness :
    octet_str_to_point "00" secp256r1 =
      .error (.valueError "Invalid octet string length") :=
  c4_decode_zero_value_error secp256r1 (by rw [secp256r1_p_val]; norm_num)

/-! ### Claim C2: decode–encode round trip -/

/-- Claim C2 (the code contradicts it): the round trip fails at the point at
infinity.  `octet_str` encodes infinity as `"00"`, but decoding `"00"` raises
`ValueError("Invalid octet string length")` because the infinity test in
`octet_str_to_point` compares the first octet (an `int`) against the string
literal `"00"` and is therefore never taken. -/
theorem c2_roundtrip_fails_at_infinity :
    point_octet_str (0, 0) = .ok "00" ∧
    (point_octet_str (0, 0) >>= fun str => octet_str_to_point str secp256r1) =
      .error (.valueError "Invalid octet string length") := by
  constructor
  · rfl
  · decide

/-! ### Claim C9: the error class of a non-residue during decompression -/

/-- Claim C9 is false as stated: on the curve `y² = x³ + x + 1` over `F₇`,
the compressed string `"0201"` selects `x = 1` with `α = 3`, a non-residue
mod 7, and decoding surfaces `AssertionError("not a square (mod p)")` from
`tonelli`'s `assert` — which is not the `ValueError` class the claim names. -/
theorem c9_counterexample :
    octet_str_to_point "0201" ⟨7, 1, 1, 12, 1⟩ =
      .error (.assertionError "not a square (mod p)") ∧
    (PyError.assertionError "not a square (mod p)").isValueError = false := by
  exact ⟨by decide, rfl⟩

/-- Claim C9 (corrected): when `octet_str_to_point` decodes a compressed octet
string whose x-coordinate makes `α = x³ + ax + b mod p` a quadratic
non-residue, the failure surfaces to the caller as the uncaught
`AssertionError("not a square (mod p)")` raised by `tonelli`'s precondition
`assert` — a different exception class from the `ValueError` used for
malformed length, invalid indicator byte, and out-of-range field elements. -/
theorem c9_amended (C : CurveParams) (str : String) (octets : List Nat) (x : Int)
    (hoct : octet_str_to_octet_list str = .ok octets)
    (hlen : octets.length = mlen C.p + 1)
    (hY : octets.headD 0 = 2 ∨ octets.headD 0 = 3)
    (hx : octet_list_to_field_elem octets.tail C.p = .ok x)
    (hodd : ¬ C.p % 2 = 0)
    (hnr : legendre ((x ^ 3 + C.a * x + C.b) % C.p) C.p ≠ 1) :
    octet_str_to_point str C = .error (.assertionError "not a square (mod p)") := by
  have ht : tonelli ((x ^ 3 + C.a * x + C.b) % C.p) C.p =
      .error (.assertionError "not a square (mod p)") := by
    unfold tonelli
    rw [if_pos hnr]
  unfold octet_str_to_point
  rw [hoct, bind_ok_eq]
  rw [if_neg (fun hcon => by simpa [octetEqualsStr00] using hcon.2)]
  rw [if_pos hlen]
  simp only [hx, bind_ok_eq]
  rw [if_neg (by rcases hY with h | h <;> rw [h] <;> norm_num)]
  rw [if_neg hodd]
  simp only [ht, bind_error_eq]

/-- Witness for `c9_amended` at the concrete non-residue instance over `F₇`. -/
theorem c9_amended_witness :
    octet_str_to_point "0201" ⟨7, 1, 1, 12, 1⟩ =
      .error (.assertionError "not a square (mod p)") :=
  c9_amended ⟨7, 1, 1, 12, 1⟩ "0201" [2, 1] 1 (by decide) (by decide)
    (Or.inl (by decide)) (by decide) (by decide) (by decide)

/-! ### Claim C7: correctness of tonelli (Tonelli–Shanks) — cast toolkit -/

theorem intCast_emod_zmod {p : Int} (hp : 0 < p) (a : Int) :
    ((a % p : Int) : ZMod p.toNat) = (a : ZMod p.toNat) := by
  have h3 : a % p = a % ((p.toNat : Nat) : Int) := by rw [Int.toNat_of_nonneg hp.le]
  rw [h3, ZMod.intCast_mod]

theorem intCast_toNat_emod_zmod {p : Int} (hp : 0 < p) (a : Int) :
    (((a % p).toNat : Nat) : ZMod p.toNat) = (a : ZMod p.toNat) := by
  have h1 : (((a % p).toNat : Nat) : Int) = a % p :=
    Int.toNat_of_nonneg (Int.emod_nonneg a hp.ne')
  calc (((a % p).toNat : Nat) : ZMod p.toNat)
      = ((((a % p).toNat : Nat) : Int) : ZMod p.toNat) := (Int.cast_natCast _).symm
    _ = ((a % p : Int) : ZMod p.toNat) := by rw [h1]
    _ = (a : ZMod p.toNat) := intCast_emod_zmod hp a

theorem legendre_cast {p : Int} (hp : 0 < p) (a : Int) :
    ((legendre a p : Int) : ZMod p.toNat) = (a : ZMod p.toNat) ^ ((p - 1) / 2).toNat := by
  unfold legendre
  rw [Int.cast_natCast, powMod_cast, intCast_toNat_emod_zmod hp]

theorem legendre_range {p : Int} (hp : 0 < p) (a : Int) :
    0 ≤ legendre a p ∧ legendre a p < p := by
  unfold legendre
  refine ⟨Int.natCast_nonneg _, ?_⟩
  have h := powMod_lt ((a % p).toNat) (((p - 1) / 2).toNat) p.toNat (by omega)
  omega

theorem int_cast_inj_range {p : Int} (hp : 0 < p) {a b : Int}
    (ha1 : 0 ≤ a) (ha2 : a < p) (hb1 : 0 ≤ b) (hb2 : b < p)
    (h : (a : ZMod p.toNat) = (b : ZMod p.toNat)) : a = b := by
  rw [ZMod.intCast_eq_intCast_iff] at h
  have hmm : a % ((p.toNat : Nat) : Int) = b % ((p.toNat : Nat) : Int) := h
  rw [Int.toNat_of_nonneg hp.le] at hmm
  rwa [Int.emod_eq_of_lt ha1 ha2, Int.emod_eq_of_lt hb1 hb2] at hmm

/-! Auxiliary loops of `tonelli` -/

theorem tonelliQS_spec :
    ∀ (f q s : Nat), q ≤ f → 0 < q →
      (tonelliQS f q s).1 % 2 = 1 ∧
      (tonelliQS f q s).1 * 2 ^ ((tonelliQS f q s).2 - s) = q ∧
      s ≤ (tonelliQS f q s).2 := by
  intro f
  induction f with
  | zero => intro q s h1 h2; omega
  | succ f ih =>
    intro q s h1 h2
    have hunf : tonelliQS (f + 1) q s =
        if q % 2 = 0 then tonelliQS f (q / 2) (s + 1) else (q, s) := rfl
    by_cases he : q % 2 = 0
    · rw [hunf, if_pos he]
      have hq2 : q / 2 ≤ f := by omega
      have hq0 : 0 < q / 2 := by omega
      obtain ⟨ho, hm, hs⟩ := ih (q / 2) (s + 1) hq2 hq0
      refine ⟨ho, ?_, by omega⟩
      have hpow : 2 ^ ((tonelliQS f (q / 2) (s + 1)).2 - s) =
          2 ^ ((tonelliQS f (q / 2) (s + 1)).2 - (s + 1)) * 2 := by
        rw [← pow_succ]
        congr 1
        omega
      rw [hpow, ← mul_assoc, hm]
      omega
    · rw [hunf, if_neg he]
      exact ⟨by omega, by simp, le_refl s⟩

theorem tonelliZ_ge (p : Int) : ∀ (f : Nat) (z : Int), z ≤ tonelliZ f z p := by
  intro f
  induction f with
  | zero => intro z; exact le_refl z
  | succ f ih =>
    intro z
    have hunf : tonelliZ (f + 1) z p =
        if legendre z p ≠ p - 1 then tonelliZ f (z + 1) p else z := rfl
    by_cases h : legendre z p ≠ p - 1
    · rw [hunf, if_pos h]
      have := ih (z + 1)
      omega
    · rw [hunf, if_neg h]

theorem tonelliZ_found (p : Int) :
    ∀ (f : Nat) (z : Int), (∃ j : Nat, j < f ∧ legendre (z + (j : Int)) p = p - 1) →
      legendre (tonelliZ f z p) p = p - 1 := by
  intro f
  induction f with
  | zero =>
    intro z h
    obtain ⟨j, hj, _⟩ := h
    omega
  | succ f ih =>
    intro z h
    obtain ⟨j, hj, hleg⟩ := h
    have hunf : tonelliZ (f + 1) z p =
        if legendre z p ≠ p - 1 then tonelliZ f (z + 1) p else z := rfl
    by_cases hz : legendre z p ≠ p - 1
    · rw [hunf, if_pos hz]
      apply ih
      have hj0 : j ≠ 0 := by
        rintro rfl
        rw [Nat.cast_zero, add_zero] at hleg
        exact hz hleg
      refine ⟨j - 1, by omega, ?_⟩
      have harg : z + 1 + ((j - 1 : Nat) : Int) = z + (j : Int) := by omega
      rw [harg]
      exact hleg
    · rw [hunf, if_neg hz]
      exact not_not.mp hz

theorem sqIter_spec {p : Int} (hp : 0 < p) :
    ∀ (k : Nat) (b : Int), 0 ≤ b → b < p →
      0 ≤ sqIter k b p ∧ sqIter k b p < p ∧
      ((sqIter k b p : Int) : ZMod p.toNat) = ((b : Int) : ZMod p.toNat) ^ (2 ^ k) := by
  intro k
  induction k with
  | zero =>
    intro b hb1 hb2
    refine ⟨hb1, hb2, ?_⟩
    show ((b : Int) : ZMod p.toNat) = ((b : Int) : ZMod p.toNat) ^ 2 ^ 0
    rw [pow_zero, pow_one]
  | succ k ih =>
    intro b hb1 hb2
    have hunf : sqIter (k + 1) b p = sqIter k (b * b % p) p := rfl
    have hr := ih (b * b % p) (Int.emod_nonneg _ hp.ne') (Int.emod_lt_of_pos _ hp)
    refine ⟨hunf ▸ hr.1, hunf ▸ hr.2.1, ?_⟩
    rw [hunf, hr.2.2, intCast_emod_zmod hp, Int.cast_mul]
    rw [← sq, ← pow_mul]
    congr 1
    rw [pow_succ]
    ring

/-! The inner order-finding loop of `tonelli` -/

theorem tonelliI_spec {p : Int} (hp : 1 < p) (T : ZMod p.toNat) (M : Nat)
    (HM : T ^ 2 ^ (M - 1) = 1) :
    ∀ (fuel : Nat) (z : Int) (i : Nat),
      0 ≤ z → z < p →
      ((z : ZMod p.toNat) = T ^ 2 ^ i) →
      i ≤ M - 1 →
      (1 ≤ i → T ^ 2 ^ (i - 1) ≠ 1) →
      M - 1 - i ≤ fuel →
      T ^ 2 ^ (tonelliI fuel z p i M) = 1 ∧
      i ≤ tonelliI fuel z p i M ∧
      tonelliI fuel z p i M ≤ M - 1 ∧
      (1 ≤ tonelliI fuel z p i M → T ^ 2 ^ (tonelliI fuel z p i M - 1) ≠ 1) := by
  intro fuel
  induction fuel with
  | zero =>
    intro z i hz0 hzp hzc hiM hmin hfuel
    have hieq : i = M - 1 := by omega
    have hres : tonelliI 0 z p i M = i := rfl
    rw [hres]
    exact ⟨hieq ▸ HM, le_refl i, hiM, hmin⟩
  | succ f ih =>
    intro z i hz0 hzp hzc hiM hmin hfuel
    have hunf : tonelliI (f + 1) z p i M =
        if z ≠ 1 ∧ i < M - 1 then tonelliI f (z * z % p) p (i + 1) M else i := rfl
    by_cases hc : z ≠ 1 ∧ i < M - 1
    · rw [hunf, if_pos hc]
      have hz1 : (z : ZMod p.toNat) ≠ 1 := by
        intro hcon
        apply hc.1
        exact int_cast_inj_range (by omega) hz0 hzp (by omega) hp
          (by rw [hcon, Int.cast_one])
      have hrec := ih (z * z % p) (i + 1) (Int.emod_nonneg _ (by omega))
        (Int.emod_lt_of_pos _ (by omega))
        (by
          rw [intCast_emod_zmod (by omega) _, Int.cast_mul, hzc, ← pow_add]
          congr 1
          rw [pow_succ]
          ring)
        (by omega)
        (fun _ => by
          have : i + 1 - 1 = i := by omega
          rw [this, ← hzc]
          exact hz1)
        (by omega)
      exact ⟨hrec.1, by omega, hrec.2.2.1, hrec.2.2.2⟩
    · rw [hunf, if_neg hc]
      rcases not_and_or.mp hc with hz1 | hiM2
      · have hz1 : z = 1 := not_not.mp hz1
        refine ⟨?_, le_refl i, hiM, hmin⟩
        rw [← hzc, hz1, Int.cast_one]
      · have hieq : i = M - 1 := by omega
        exact ⟨hieq ▸ HM, le_refl i, hiM, hmin⟩

/-! The main square-root refinement loop of `tonelli` -/

theorem tonelliLoop_spec {p : Int} [Fact (Nat.Prime p.toNat)] (hp : 1 < p) (N : ZMod p.toNat)
    (hne : (-1 : ZMod p.toNat) ≠ 1) :
    ∀ (fuel : Nat) (t R c : Int) (M : Nat),
      M < fuel →
      0 ≤ t → t < p → 0 ≤ c → c < p →
      ((R : ZMod p.toNat) ^ 2 = N * (t : ZMod p.toNat)) →
      1 ≤ M →
      ((t : ZMod p.toNat) ^ 2 ^ (M - 1) = 1) →
      ((c : ZMod p.toNat) ^ 2 ^ (M - 1) = -1) →
      ∃ r : Int, tonelliLoop fuel p t R c M = .ok r ∧ ((r : ZMod p.toNat) ^ 2 = N) := by
  intro fuel
  induction fuel with
  | zero =>
    intro t R c M hf
    exact absurd hf (by omega)
  | succ f ih =>
    intro t R c M hf ht0 htp hc0 hcp hR hM1 hT hC
    have hp0 : (0 : Int) < p := by omega
    by_cases hcond : t ≠ 0 ∧ t ≠ 1
    · have hunf : tonelliLoop (f + 1) p t R c M =
          tonelliLoop f p
            (t * (sqIter (M - tonelliI M t p 0 M - 1) c p *
                sqIter (M - tonelliI M t p 0 M - 1) c p % p) % p)
            (R * sqIter (M - tonelliI M t p 0 M - 1) c p % p)
            (sqIter (M - tonelliI M t p 0 M - 1) c p *
                sqIter (M - tonelliI M t p 0 M - 1) c p % p)
            (tonelliI M t p 0 M) := by
        show (if t ≠ 0 ∧ t ≠ 1 then _ else _) = _
        rw [if_pos hcond]
      have htne1 : (t : ZMod p.toNat) ≠ 1 := by
        intro hcon
        exact hcond.2 (int_cast_inj_range hp0 ht0 htp (by omega) hp
          (by rw [hcon, Int.cast_one]))
      have hM2 : 2 ≤ M := by
        rcases Nat.lt_or_ge M 2 with h | h
        · exfalso
          have hM : M = 1 := by omega
          rw [hM] at hT
          simp only [Nat.sub_self, pow_zero, pow_one] at hT
          exact htne1 hT
        · exact h
      obtain ⟨hTi, hi0, hiM, hcarry⟩ :=
        tonelliI_spec hp ((t : ZMod p.toNat)) M hT M t 0 ht0 htp
          (by rw [pow_zero, pow_one]) (by omega) (by omega) (by omega)
      have hi1 : 1 ≤ tonelliI M t p 0 M := by
        rcases Nat.lt_or_ge (tonelliI M t p 0 M) 1 with h | h
        · exfalso
          have h0 : tonelliI M t p 0 M = 0 := by omega
          rw [h0, pow_zero, pow_one] at hTi
          exact htne1 hTi
        · exact h
      set i := tonelliI M t p 0 M with hidef
      set b := sqIter (M - i - 1) c p with hbdef
      obtain ⟨hb0, hbp, hbc⟩ := sqIter_spec hp0 (M - i - 1) c hc0 hcp
      have htpow : ((t : ZMod p.toNat)) ^ 2 ^ (i - 1) = -1 := by
        have hsq : (((t : ZMod p.toNat)) ^ 2 ^ (i - 1)) *
            (((t : ZMod p.toNat)) ^ 2 ^ (i - 1)) = 1 := by
          rw [← pow_add]
          have h2 : i - 1 + 1 = i := by omega
          have he : 2 ^ (i - 1) + 2 ^ (i - 1) = 2 ^ i := by
            calc 2 ^ (i - 1) + 2 ^ (i - 1) = 2 ^ (i - 1) * 2 := by ring
              _ = 2 ^ (i - 1 + 1) := (pow_succ 2 (i - 1)).symm
              _ = 2 ^ i := by rw [h2]
          rw [he]
          exact hTi
        rcases mul_self_eq_one_iff.mp hsq with h | h
        · exact absurd h (hcarry hi1)
        · exact h
      have hcpow : ((c : ZMod p.toNat)) ^ (2 ^ (M - i) * 2 ^ (i - 1)) = -1 := by
        rw [← pow_add]
        have he : M - i + (i - 1) = M - 1 := by omega
        rw [he]
        exact hC
      have hbsq : ((b : Int) : ZMod p.toNat) * ((b : Int) : ZMod p.toNat) =
          ((c : ZMod p.toNat)) ^ 2 ^ (M - i) := by
        rw [hbc, ← pow_add]
        have he : M - i - 1 + 1 = M - i := by omega
        calc ((c : ZMod p.toNat)) ^ (2 ^ (M - i - 1) + 2 ^ (M - i - 1))
            = ((c : ZMod p.toNat)) ^ (2 ^ (M - i - 1) * 2) := by ring_nf
          _ = ((c : ZMod p.toNat)) ^ (2 ^ (M - i - 1 + 1)) := by rw [pow_succ]
          _ = ((c : ZMod p.toNat)) ^ 2 ^ (M - i) := by rw [he]
      rw [hunf]
      have hrec := ih (t * (b * b % p) % p) (R * b % p) (b * b % p) i
        (by omega)
        (Int.emod_nonneg _ (by omega)) (Int.emod_lt_of_pos _ hp0)
        (Int.emod_nonneg _ (by omega)) (Int.emod_lt_of_pos _ hp0)
        (by
          simp only [intCast_emod_zmod hp0, Int.cast_mul]
          rw [mul_pow, hR, sq, hbsq]
          ring)
        hi1
        (by
          simp only [intCast_emod_zmod hp0, Int.cast_mul]
          rw [mul_pow, htpow, hbsq, ← pow_mul, hcpow]
          norm_num)
        (by
          simp only [intCast_emod_zmod hp0, Int.cast_mul]
          rw [hbsq, ← pow_mul, hcpow])
      exact hrec
    · have hunf : tonelliLoop (f + 1) p t R c M =
          if t = 0 then .ok 0 else .ok R := by
        show (if t ≠ 0 ∧ t ≠ 1 then _ else _) = _
        rw [if_neg hcond]
      rcases not_and_or.mp hcond with h0 | h1
      · exfalso
        have ht : t = 0 := not_not.mp h0
        rw [ht, Int.cast_zero, zero_pow (by positivity : (2 : Nat) ^ (M - 1) ≠ 0)] at hT
        exact hne (by linear_combination (2 : ZMod p.toNat) * hT)
      · have ht : t = 1 := not_not.mp h1
        rw [hunf, if_neg (by omega : ¬ t = 0)]
        refine ⟨R, rfl, ?_⟩
        rw [hR, ht, Int.cast_one, mul_one]

/-! Assembling tonelli's correctness -/

theorem powModInt_cast {p : Int} (hp : 0 < p) (a : Int) (e : Nat) :
    (((powMod (a % p).toNat e p.toNat : Nat) : Int) : ZMod p.toNat) =
      (a : ZMod p.toNat) ^ e := by
  rw [Int.cast_natCast, powMod_cast, intCast_toNat_emod_zmod hp]

theorem neg_one_zmod {p : Int} (hp : 2 < p) :
    ((p - 1 : Int) : ZMod p.toNat) = -1 := by
  have h : ((p : Int) : ZMod p.toNat) = 0 := by
    rw [show (p : Int) = ((p.toNat : Nat) : Int) from (Int.toNat_of_nonneg (by omega)).symm,
      Int.cast_natCast, ZMod.natCast_self]
  rw [Int.cast_sub, h, Int.cast_one]
  ring

/-- A non-residue below `p` exists for an odd prime `p`, measured by the
code's `legendre`. -/
theorem exists_nonresidue {p : Int} (hp : Nat.Prime p.toNat) (hodd : p % 2 = 1)
    (hp3 : 3 ≤ p) :
    ∃ w : Nat, 1 ≤ w ∧ w < p.toNat ∧ legendre ((w : Nat) : Int) p = p - 1 := by
  haveI : Fact (Nat.Prime p.toNat) := ⟨hp⟩
  haveI : NeZero p.toNat := ⟨by omega⟩
  have hp0 : (0 : Int) < p := by omega
  have hchar : ringChar (ZMod p.toNat) ≠ 2 := by
    rw [ZMod.ringChar_zmod_n]
    omega
  obtain ⟨u, hu⟩ := FiniteField.exists_nonsquare hchar
  have hu0 : u ≠ 0 := by
    intro hcon
    exact hu ⟨0, by rw [hcon, mul_zero]⟩
  have hval0 : 1 ≤ u.val := by
    have := ZMod.val_eq_zero u
    rcases Nat.eq_zero_or_pos u.val with h | h
    · exact absurd (this.mp h) hu0
    · exact h
  have hvallt : u.val < p.toNat := ZMod.val_lt u
  refine ⟨u.val, hval0, hvallt, ?_⟩
  have hcast : ((u.val : Nat) : ZMod p.toNat) = u := ZMod.natCast_rightInverse u
  have heuler : u ^ ((p.toNat - 1) / 2) = -1 := by
    have hne1 : u ^ (p.toNat / 2) ≠ 1 := by
      intro hcon
      exact hu ((ZMod.euler_criterion p.toNat hu0).mpr hcon)
    have hdiv : p.toNat / 2 = (p.toNat - 1) / 2 := by omega
    rw [hdiv] at hne1
    have hsq : u ^ ((p.toNat - 1) / 2) * u ^ ((p.toNat - 1) / 2) = 1 := by
      rw [← pow_add]
      have he : (p.toNat - 1) / 2 + (p.toNat - 1) / 2 = p.toNat - 1 := by omega
      rw [he]
      exact ZMod.pow_card_sub_one_eq_one hu0
    rcases mul_self_eq_one_iff.mp hsq with h | h
    · exact absurd h hne1
    · exact h
  apply int_cast_inj_range hp0 (legendre_range hp0 _).1 (legendre_range hp0 _).2
    (by omega) (by omega)
  rw [legendre_cast hp0, Int.cast_natCast, hcast, neg_one_zmod (by omega)]
  have hexp : ((p - 1) / 2).toNat = (p.toNat - 1) / 2 := by omega
  rw [hexp]
  exact heuler

/-- Claim C7: for every odd prime `p`: if `legendre(n, p) = 1` then
`tonelli(n, p)` returns a value `r` with `r² ≡ n (mod p)`, and for every `n`
with `legendre(n, p) ≠ 1` it fails with the `"not a square (mod p)"`
precondition `AssertionError`. -/
theorem c7_tonelli_correct (p n : Int) (hp : Nat.Prime p.toNat) (hodd : p % 2 = 1) :
    (legendre n p = 1 → ∃ r, tonelli n p = .ok r ∧ r * r ≡ n [ZMOD p]) ∧
    (legendre n p ≠ 1 → tonelli n p = .error (.assertionError "not a square (mod p)")) := by
  constructor
  · intro hL
    haveI : Fact (Nat.Prime p.toNat) := ⟨hp⟩
    have hp2 : 2 ≤ p.toNat := hp.two_le
    have hp3 : 3 ≤ p := by omega
    have hp0 : (0 : Int) < p := by omega
    have hp1 : (1 : Int) < p := by omega
    haveI : NeZero p.toNat := ⟨by omega⟩
    have hz1 : (1 : Int) ≤ tonelliZ p.toNat 1 p := tonelliZ_ge p p.toNat 1
    have hzne : ¬ (tonelliZ p.toNat 1 p = 0) := by omega
    have hunf : tonelli n p = tonelliLoop ((tonelliQS (p - 1).toNat (p - 1).toNat 0).2 + 1) p
        ((powMod (n % p).toNat (tonelliQS (p - 1).toNat (p - 1).toNat 0).1 p.toNat : Nat) : Int)
        ((powMod (n % p).toNat (((tonelliQS (p - 1).toNat (p - 1).toNat 0).1 + 1) / 2) p.toNat : Nat) : Int)
        ((powMod ((tonelliZ p.toNat 1 p) % p).toNat (tonelliQS (p - 1).toNat (p - 1).toNat 0).1 p.toNat : Nat) : Int)
        (tonelliQS (p - 1).toNat (p - 1).toNat 0).2 := by
      unfold tonelli
      rw [if_neg (not_not_intro hL)]
      show (if tonelliZ p.toNat 1 p = 0 then _ else _) = _
      rw [if_neg hzne]
    set Q := (tonelliQS (p - 1).toNat (p - 1).toNat 0).1 with hQdef
    set S := (tonelliQS (p - 1).toNat (p - 1).toNat 0).2 with hSdef
    set z := tonelliZ p.toNat 1 p with hzdef
    have hpt1 : (p - 1).toNat = p.toNat - 1 := by omega
    have hQodd : Q % 2 = 1 := by
      have h := (tonelliQS_spec (p - 1).toNat (p - 1).toNat 0 le_rfl (by omega)).1
      rw [← hQdef] at h
      exact h
    have hQS : Q * 2 ^ S = p.toNat - 1 := by
      have h := (tonelliQS_spec (p - 1).toNat (p - 1).toNat 0 le_rfl (by omega)).2.1
      rw [Nat.sub_zero] at h
      rw [← hQdef, ← hSdef] at h
      rw [hpt1] at h
      exact h
    have hS1 : 1 ≤ S := by
      rcases Nat.eq_zero_or_pos S with h | h
      · exfalso
        rw [h, pow_zero, mul_one] at hQS
        have hpo : p.toNat % 2 = 1 := by omega
        omega
      · exact h
    have hhalf : Q * 2 ^ (S - 1) = (p.toNat - 1) / 2 := by
      have hss : S - 1 + 1 = S := by omega
      have h3 : Q * 2 ^ (S - 1) * 2 = p.toNat - 1 := by
        rw [mul_assoc, ← pow_succ, hss]
        exact hQS
      generalize hA : Q * 2 ^ (S - 1) = A at h3 ⊢
      omega
    obtain ⟨w, hw1, hwlt, hwleg⟩ := exists_nonresidue hp hodd hp3
    have hzleg : legendre z p = p - 1 := by
      apply tonelliZ_found
      refine ⟨w - 1, by omega, ?_⟩
      have harg : (1 : Int) + ((w - 1 : Nat) : Int) = ((w : Nat) : Int) := by omega
      rw [harg]
      exact hwleg
    have hzrange := legendre_range hp0 z
    have hne : (-1 : ZMod p.toNat) ≠ 1 := by
      haveI : Fact (2 < p.toNat) := ⟨by omega⟩
      exact CharP.neg_one_ne_one (ZMod p.toNat) p.toNat
    have hnpow : ((n : ZMod p.toNat)) ^ ((p.toNat - 1) / 2) = 1 := by
      have hcast := legendre_cast hp0 n
      rw [hL, Int.cast_one] at hcast
      have hexp : ((p - 1) / 2).toNat = (p.toNat - 1) / 2 := by omega
      rw [hexp] at hcast
      exact hcast.symm
    have hzpow : ((z : ZMod p.toNat)) ^ ((p.toNat - 1) / 2) = -1 := by
      have hcast := legendre_cast hp0 z
      rw [hzleg, neg_one_zmod (by omega)] at hcast
      have hexp : ((p - 1) / 2).toNat = (p.toNat - 1) / 2 := by omega
      rw [hexp] at hcast
      exact hcast.symm
    have hT0 : (((powMod (n % p).toNat Q p.toNat : Nat) : Int) : ZMod p.toNat) ^ 2 ^ (S - 1) = 1 := by
      rw [powModInt_cast hp0, ← pow_mul, hhalf]
      exact hnpow
    have hC0 : (((powMod (z % p).toNat Q p.toNat : Nat) : Int) : ZMod p.toNat) ^ 2 ^ (S - 1) = -1 := by
      rw [powModInt_cast hp0, ← pow_mul, hhalf]
      exact hzpow
    have hR0 : (((powMod (n % p).toNat ((Q + 1) / 2) p.toNat : Nat) : Int) : ZMod p.toNat) ^ 2 =
        ((n : ZMod p.toNat)) * (((powMod (n % p).toNat Q p.toNat : Nat) : Int) : ZMod p.toNat) := by
      rw [powModInt_cast hp0, powModInt_cast hp0, ← pow_mul]
      have hq1 : (Q + 1) / 2 * 2 = Q + 1 := by omega
      rw [hq1, pow_succ]
      ring
    have hrange : ∀ (x : Int) (e : Nat),
        0 ≤ ((powMod (x % p).toNat e p.toNat : Nat) : Int) ∧
        ((powMod (x % p).toNat e p.toNat : Nat) : Int) < p := by
      intro x e
      have := powMod_lt (x % p).toNat e p.toNat (by omega)
      omega
    obtain ⟨r, hloop, hr⟩ := tonelliLoop_spec hp1 ((n : ZMod p.toNat)) hne (S + 1)
      ((powMod (n % p).toNat Q p.toNat : Nat) : Int)
      ((powMod (n % p).toNat ((Q + 1) / 2) p.toNat : Nat) : Int)
      ((powMod (z % p).toNat Q p.toNat : Nat) : Int)
      S (by omega)
      (hrange n Q).1 (hrange n Q).2 (hrange z Q).1 (hrange z Q).2
      hR0 hS1 hT0 hC0
    refine ⟨r, ?_, ?_⟩
    · rw [hunf]
      exact hloop
    · have hsq : ((r * r : Int) : ZMod p.toNat) = ((n : Int) : ZMod p.toNat) := by
        rw [Int.cast_mul, ← sq]
        exact hr
      rw [ZMod.intCast_eq_intCast_iff] at hsq
      have hmm : r * r ≡ n [ZMOD ((p.toNat : Nat) : Int)] := hsq
      rwa [Int.toNat_of_nonneg hp0.le] at hmm
  · intro hne
    unfold tonelli
    rw [if_pos hne]

/-- Witness for `c7_tonelli_correct` at `p = 7`, `n = 2`. -/
theorem c7_tonelli_correct_witness :
    (legendre 2 7 = 1 → ∃ r, tonelli 2 7 = .ok r ∧ r * r ≡ 2 [ZMOD 7]) ∧
    (legendre 2 7 ≠ 1 → tonelli 2 7 = .error (.assertionError "not a square (mod p)")) :=
  c7_tonelli_correct 7 2 (by show Nat.Prime 7; norm_num) (by decide)

/-! ### Bridge lemmas: ptF structure and casts -/

theorem Wc_negY (p : Nat) (a b : Int) (x y : ZMod p) :
    (Wc p a b).negY x y = -y := by
  simp [WeierstrassCurve.Affine.negY, Wc]

theorem ptF_zero (p : Nat) (a b : Int) : ptF p a b (0, 0) = 0 := by
  unfold ptF
  rw [dif_neg]
  intro h
  exact h.1 ⟨rfl, rfl⟩

theorem ptF_sentinel (p : Nat) (a b : Int) {P : Int × Int} (h : P = (0, 0)) :
    ptF p a b P = 0 := by
  rw [h]
  exact ptF_zero p a b

theorem ptF_some {C : CurveParams} {P : Int × Int} (hv : ValidRep C P)
    (hne : ¬ (P.1 = 0 ∧ P.2 = 0))
    (hns : (Wc C.p.toNat C.a C.b).Nonsingular ((P.1 : ZMod C.p.toNat))
      ((P.2 : ZMod C.p.toNat))) :
    ptF C.p.toNat C.a C.b P = .some hns := by
  unfold ptF
  rw [dif_pos ⟨hne, hns⟩]

theorem validRep_cases {C : CurveParams} {P : Int × Int} (hv : ValidRep C P) :
    P = (0, 0) ∨
    (¬ (P.1 = 0 ∧ P.2 = 0) ∧ 0 ≤ P.1 ∧ P.1 < C.p ∧ 0 ≤ P.2 ∧ P.2 < C.p ∧
      (Wc C.p.toNat C.a C.b).Nonsingular ((P.1 : ZMod C.p.toNat))
        ((P.2 : ZMod C.p.toNat))) := hv

theorem someEq {p : Nat} {a b : Int} {x₁ y₁ x₂ y₂ : ZMod p}
    (hx : x₁ = x₂) (hy : y₁ = y₂)
    (h₁ : (Wc p a b).Nonsingular x₁ y₁) (h₂ : (Wc p a b).Nonsingular x₂ y₂) :
    (WeierstrassCurve.Affine.Point.some h₁ : (Wc p a b).Point) =
      WeierstrassCurve.Affine.Point.some h₂ := by
  subst hx
  subst hy
  rfl

theorem ptF_inj {C : CurveParams} (hp0 : 0 < C.p) {P Q : Int × Int}
    (hP : ValidRep C P) (hQ : ValidRep C Q)
    (h : ptF C.p.toNat C.a C.b P = ptF C.p.toNat C.a C.b Q) : P = Q := by
  rcases hP with hP0 | ⟨hPne, hPx0, hPx1, hPy0, hPy1, hPns⟩
  · rcases hQ with hQ0 | ⟨hQne, hQx0, hQx1, hQy0, hQy1, hQns⟩
    · rw [hP0, hQ0]
    · exfalso
      rw [ptF_sentinel _ _ _ hP0,
        ptF_some (Or.inr ⟨hQne, hQx0, hQx1, hQy0, hQy1, hQns⟩) hQne hQns] at h
      exact WeierstrassCurve.Affine.Point.some_ne_zero hQns h.symm
  · rcases hQ with hQ0 | ⟨hQne, hQx0, hQx1, hQy0, hQy1, hQns⟩
    · exfalso
      rw [ptF_sentinel _ _ _ hQ0,
        ptF_some (Or.inr ⟨hPne, hPx0, hPx1, hPy0, hPy1, hPns⟩) hPne hPns] at h
      exact WeierstrassCurve.Affine.Point.some_ne_zero hPns h
    · rw [ptF_some (Or.inr ⟨hPne, hPx0, hPx1, hPy0, hPy1, hPns⟩) hPne hPns,
        ptF_some (Or.inr ⟨hQne, hQx0, hQx1, hQy0, hQy1, hQns⟩) hQne hQns] at h
      injection h with hx hy
      exact Prod.ext (int_cast_inj_range hp0 hPx0 hPx1 hQx0 hQx1 hx)
        (int_cast_inj_range hp0 hPy0 hPy1 hQy0 hQy1 hy)

/-- On-curve check transported from an integer congruence. -/
theorem equation_of_int {C : CurveParams} (hp0 : 0 < C.p) {x y : Int}
    (h : (y ^ 2 - (x ^ 3 + C.a * x + C.b)) % C.p = 0) :
    (Wc C.p.toNat C.a C.b).Equation ((x : ZMod C.p.toNat)) ((y : ZMod C.p.toNat)) := by
  rw [WeierstrassCurve.Affine.equation_iff]
  have hc := congrArg (fun t : Int => ((t : ZMod C.p.toNat))) h
  simp only at hc
  rw [intCast_emod_zmod hp0] at hc
  push_cast at hc
  show ((y : ZMod C.p.toNat)) ^ 2 + (Wc C.p.toNat C.a C.b).a₁ * _ * _ +
      (Wc C.p.toNat C.a C.b).a₃ * _ = _
  simp only [Wc]
  linear_combination hc

/-! ### Soundness of pointAdd with respect to Mathlib's group law -/

open WeierstrassCurve.Affine

theorem inv_cast {p d i : Int} (hp0 : 0 < p) (h : inv_mod d p = .ok i) :
    ((i : ZMod p.toNat)) * ((d : ZMod p.toNat)) = 1 := by
  have hs := (inv_mod_ok hp0 h).1
  have hc : ((i * d : Int) : ZMod p.toNat) = ((1 : Int) : ZMod p.toNat) := by
    rw [ZMod.intCast_eq_intCast_iff]
    show i * d % ((p.toNat : Nat) : Int) = 1 % ((p.toNat : Nat) : Int)
    rw [Int.toNat_of_nonneg hp0.le]
    exact hs
  push_cast at hc
  exact hc

theorem result_ne_sentinel {C : CurveParams} (hb : ((C.b : ZMod C.p.toNat)) ≠ 0)
    {rx ry : Int}
    (hns : (Wc C.p.toNat C.a C.b).Nonsingular ((rx : ZMod C.p.toNat))
      ((ry : ZMod C.p.toNat))) :
    ¬ (rx = 0 ∧ ry = 0) := by
  rintro ⟨rfl, rfl⟩
  have h := hns.1
  rw [Int.cast_zero] at h
  rw [WeierstrassCurve.Affine.equation_zero] at h
  exact hb h

theorem pointAdd_sound {C : CurveParams} [Fact (Nat.Prime C.p.toNat)]
    (hp2 : 2 < C.p) (hb : ((C.b : ZMod C.p.toNat)) ≠ 0)
    {P Q R : Int × Int} (hP : ValidRep C P) (hQ : ValidRep C Q)
    (h : pointAdd C P Q = .ok R) :
    ValidRep C R ∧
    ptF C.p.toNat C.a C.b R =
      ptF C.p.toNat C.a C.b P + ptF C.p.toNat C.a C.b Q := by
  have hp0 : (0 : Int) < C.p := by omega
  unfold pointAdd at h
  by_cases h1 : P.1 = P.2 ∧ P.2 = 0
  · have hP0 : P = (0, 0) := by
      have hx : P.1 = 0 := by rw [h1.1, h1.2]
      exact Prod.ext hx h1.2
    rw [if_pos h1] at h
    cases h
    exact ⟨hQ, by rw [ptF_sentinel _ _ _ hP0, zero_add]⟩
  · rw [if_neg h1] at h
    by_cases h2 : Q.1 = Q.2 ∧ Q.2 = 0
    · have hQ0 : Q = (0, 0) := by
        have hx : Q.1 = 0 := by rw [h2.1, h2.2]
        exact Prod.ext hx h2.2
      rw [if_pos h2] at h
      cases h
      exact ⟨hP, by rw [ptF_sentinel _ _ _ hQ0, add_zero]⟩
    · rw [if_neg h2] at h
      obtain ⟨hPne, hPx0, hPx1, hPy0, hPy1, hPns⟩ := hP.resolve_left (by
        intro hc
        apply h1
        rw [hc]
        exact ⟨rfl, rfl⟩)
      obtain ⟨hQne, hQx0, hQx1, hQy0, hQy1, hQns⟩ := hQ.resolve_left (by
        intro hc
        apply h2
        rw [hc]
        exact ⟨rfl, rfl⟩)
      rw [ptF_some (Or.inr ⟨hPne, hPx0, hPx1, hPy0, hPy1, hPns⟩) hPne hPns,
        ptF_some (Or.inr ⟨hQne, hQx0, hQx1, hQy0, hQy1, hQns⟩) hQne hQns]
      by_cases h3 : P.1 = Q.1
      · rw [if_pos h3] at h
        by_cases h4 : P.2 = Q.2
        · -- doubling branch
          rw [if_pos h4] at h
          cases hi : inv_mod (2 * P.2) C.p with
          | error e => rw [hi, bind_error_eq] at h; cases h
          | ok i =>
            rw [hi, bind_ok_eq] at h
            have h5 : Except.ok
                ((((3 * P.1 ^ 2 + C.a) * i % C.p) ^ 2 - 2 * P.1) % C.p,
                 ((3 * P.1 ^ 2 + C.a) * i % C.p *
                    (P.1 - (((3 * P.1 ^ 2 + C.a) * i % C.p) ^ 2 - 2 * P.1) % C.p) -
                  P.2) % C.p) = Except.ok R := h
            injection h5 with h5
            have hinv := inv_cast hp0 hi
            have h2y : ((2 * P.2 : Int) : ZMod C.p.toNat) =
                2 * ((P.2 : ZMod C.p.toNat)) := by push_cast; ring
            rw [h2y] at hinv
            have h2yne : 2 * ((P.2 : ZMod C.p.toNat)) ≠ 0 :=
              right_ne_zero_of_mul_eq_one hinv
            have hicast : ((i : ZMod C.p.toNat)) =
                (2 * ((P.2 : ZMod C.p.toNat)))⁻¹ :=
              eq_inv_of_mul_eq_one_left hinv
            have hyQ : ((Q.2 : ZMod C.p.toNat)) = ((P.2 : ZMod C.p.toNat)) := by rw [← h4]
            have hxQ : ((Q.1 : ZMod C.p.toNat)) = ((P.1 : ZMod C.p.toNat)) := by rw [← h3]
            have hyne : ((P.2 : ZMod C.p.toNat)) ≠
                (Wc C.p.toNat C.a C.b).negY ((Q.1 : ZMod C.p.toNat))
                  ((Q.2 : ZMod C.p.toNat)) := by
              rw [Wc_negY, hyQ]
              intro hcon
              exact h2yne (by linear_combination hcon)
            rw [Point.add_of_Y_ne hyne]
            have hslope : (Wc C.p.toNat C.a C.b).slope
                ((P.1 : ZMod C.p.toNat)) ((Q.1 : ZMod C.p.toNat))
                ((P.2 : ZMod C.p.toNat)) ((Q.2 : ZMod C.p.toNat)) =
                (((3 * P.1 ^ 2 + C.a) * i % C.p : Int) : ZMod C.p.toNat) := by
              rw [slope_of_Y_ne (by rw [hxQ]) hyne, Wc_negY, intCast_emod_zmod hp0]
              push_cast
              rw [hicast]
              simp only [Wc]
              rw [div_eq_mul_inv]
              congr 1
              · ring
              · congr 1
                ring
            have hrx : ((((((3 * P.1 ^ 2 + C.a) * i % C.p) ^ 2 - 2 * P.1) % C.p : Int)) :
                ZMod C.p.toNat) =
                (Wc C.p.toNat C.a C.b).addX ((P.1 : ZMod C.p.toNat))
                  ((Q.1 : ZMod C.p.toNat))
                  ((Wc C.p.toNat C.a C.b).slope ((P.1 : ZMod C.p.toNat))
                    ((Q.1 : ZMod C.p.toNat)) ((P.2 : ZMod C.p.toNat))
                    ((Q.2 : ZMod C.p.toNat))) := by
              simp only [WeierstrassCurve.Affine.addX]
              rw [hslope, intCast_emod_zmod hp0]
              push_cast
              simp only [Wc]
              rw [hxQ]
              ring
            have hry : ((((3 * P.1 ^ 2 + C.a) * i % C.p *
                  (P.1 - (((3 * P.1 ^ 2 + C.a) * i % C.p) ^ 2 - 2 * P.1) % C.p) -
                  P.2) % C.p : Int) : ZMod C.p.toNat) =
                (Wc C.p.toNat C.a C.b).addY ((P.1 : ZMod C.p.toNat))
                  ((Q.1 : ZMod C.p.toNat)) ((P.2 : ZMod C.p.toNat))
                  ((Wc C.p.toNat C.a C.b).slope ((P.1 : ZMod C.p.toNat))
                    ((Q.1 : ZMod C.p.toNat)) ((P.2 : ZMod C.p.toNat))
                    ((Q.2 : ZMod C.p.toNat))) := by
              rw [WeierstrassCurve.Affine.addY, WeierstrassCurve.Affine.negAddY, Wc_negY,
                ← hrx, hslope, intCast_emod_zmod hp0]
              push_cast
              ring
            have hns2 := WeierstrassCurve.Affine.nonsingular_add hPns hQns
              (fun _ => hyne)
            rw [← hrx, ← hry] at hns2
            subst h5
            have hnsent := result_ne_sentinel hb hns2
            have hRv : ValidRep C ((((3 * P.1 ^ 2 + C.a) * i % C.p) ^ 2 - 2 * P.1) % C.p,
                ((3 * P.1 ^ 2 + C.a) * i % C.p *
                  (P.1 - (((3 * P.1 ^ 2 + C.a) * i % C.p) ^ 2 - 2 * P.1) % C.p) -
                 P.2) % C.p) := Or.inr ⟨hnsent,
              Int.emod_nonneg _ (by omega), Int.emod_lt_of_pos _ hp0,
              Int.emod_nonneg _ (by omega), Int.emod_lt_of_pos _ hp0, hns2⟩
            refine ⟨hRv, ?_⟩
            rw [ptF_some hRv hnsent hns2]
            exact someEq hrx hry hns2 _
        · -- x equal, y different: result is the sentinel
          rw [if_neg h4] at h
          cases h
          have hyne2 : ((P.2 : ZMod C.p.toNat)) ≠ ((Q.2 : ZMod C.p.toNat)) := by
            intro hcon
            exact h4 (int_cast_inj_range hp0 hPy0 hPy1 hQy0 hQy1 hcon)
          have hxQ : ((P.1 : ZMod C.p.toNat)) = ((Q.1 : ZMod C.p.toNat)) := by rw [h3]
          have hy : ((P.2 : ZMod C.p.toNat)) =
              (Wc C.p.toNat C.a C.b).negY ((Q.1 : ZMod C.p.toNat))
                ((Q.2 : ZMod C.p.toNat)) := by
            rcases WeierstrassCurve.Affine.Y_eq_of_X_eq hPns.1 hQns.1 hxQ with hc | hc
            · exact absurd hc hyne2
            · exact hc
          refine ⟨Or.inl rfl, ?_⟩
          rw [ptF_zero, Point.add_of_Y_eq hxQ hy]
      · -- distinct x coordinates
        rw [if_neg h3] at h
        cases hi : inv_mod (Q.1 - P.1) C.p with
        | error e => rw [hi, bind_error_eq] at h; cases h
        | ok i =>
          rw [hi, bind_ok_eq] at h
          have h5 : Except.ok
              ((((Q.2 - P.2) * i % C.p) ^ 2 - P.1 - Q.1) % C.p,
               ((Q.2 - P.2) * i % C.p *
                  (P.1 - (((Q.2 - P.2) * i % C.p) ^ 2 - P.1 - Q.1) % C.p) -
                P.2) % C.p) = Except.ok R := h
          injection h5 with h5
          have hinv := inv_cast hp0 hi
          have hdx : ((Q.1 - P.1 : Int) : ZMod C.p.toNat) =
              ((Q.1 : ZMod C.p.toNat)) - ((P.1 : ZMod C.p.toNat)) := by push_cast; ring
          rw [hdx] at hinv
          have hdxne : ((Q.1 : ZMod C.p.toNat)) - ((P.1 : ZMod C.p.toNat)) ≠ 0 :=
            right_ne_zero_of_mul_eq_one hinv
          have hicast : ((i : ZMod C.p.toNat)) =
              (((Q.1 : ZMod C.p.toNat)) - ((P.1 : ZMod C.p.toNat)))⁻¹ :=
            eq_inv_of_mul_eq_one_left hinv
          have hxne : ((P.1 : ZMod C.p.toNat)) ≠ ((Q.1 : ZMod C.p.toNat)) := by
            intro hcon
            exact h3 (int_cast_inj_range hp0 hPx0 hPx1 hQx0 hQx1 hcon)
          rw [Point.add_of_X_ne hxne]
          have hslope : (Wc C.p.toNat C.a C.b).slope
              ((P.1 : ZMod C.p.toNat)) ((Q.1 : ZMod C.p.toNat))
              ((P.2 : ZMod C.p.toNat)) ((Q.2 : ZMod C.p.toNat)) =
              (((Q.2 - P.2) * i % C.p : Int) : ZMod C.p.toNat) := by
            rw [slope_of_X_ne hxne]
            rw [intCast_emod_zmod hp0]
            push_cast
            rw [hicast]
            rw [div_eq_mul_inv]
            have hflip : (((P.2 : ZMod C.p.toNat)) - ((Q.2 : ZMod C.p.toNat))) *
                (((P.1 : ZMod C.p.toNat)) - ((Q.1 : ZMod C.p.toNat)))⁻¹ =
                (((Q.2 : ZMod C.p.toNat)) - ((P.2 : ZMod C.p.toNat))) *
                (((Q.1 : ZMod C.p.toNat)) - ((P.1 : ZMod C.p.toNat)))⁻¹ := by
              rw [show ((P.2 : ZMod C.p.toNat)) - ((Q.2 : ZMod C.p.toNat)) =
                  -(((Q.2 : ZMod C.p.toNat)) - ((P.2 : ZMod C.p.toNat))) by ring,
                show ((P.1 : ZMod C.p.toNat)) - ((Q.1 : ZMod C.p.toNat)) =
                  -(((Q.1 : ZMod C.p.toNat)) - ((P.1 : ZMod C.p.toNat))) by ring,
                inv_neg, neg_mul, mul_neg, neg_neg]
            exact hflip
          have hrx : (((((Q.2 - P.2) * i % C.p) ^ 2 - P.1 - Q.1) % C.p : Int) :
              ZMod C.p.toNat) =
              (Wc C.p.toNat C.a C.b).addX ((P.1 : ZMod C.p.toNat))
                ((Q.1 : ZMod C.p.toNat))
                ((Wc C.p.toNat C.a C.b).slope ((P.1 : ZMod C.p.toNat))
                  ((Q.1 : ZMod C.p.toNat)) ((P.2 : ZMod C.p.toNat))
                  ((Q.2 : ZMod C.p.toNat))) := by
            simp only [WeierstrassCurve.Affine.addX]
            rw [hslope, intCast_emod_zmod hp0]
            push_cast
            simp only [Wc]
            ring
          have hry : ((((Q.2 - P.2) * i % C.p *
                (P.1 - (((Q.2 - P.2) * i % C.p) ^ 2 - P.1 - Q.1) % C.p) -
                P.2) % C.p : Int) : ZMod C.p.toNat) =
              (Wc C.p.toNat C.a C.b).addY ((P.1 : ZMod C.p.toNat))
                ((Q.1 : ZMod C.p.toNat)) ((P.2 : ZMod C.p.toNat))
                ((Wc C.p.toNat C.a C.b).slope ((P.1 : ZMod C.p.toNat))
                  ((Q.1 : ZMod C.p.toNat)) ((P.2 : ZMod C.p.toNat))
                  ((Q.2 : ZMod C.p.toNat))) := by
            rw [WeierstrassCurve.Affine.addY, WeierstrassCurve.Affine.negAddY, Wc_negY,
              ← hrx, hslope, intCast_emod_zmod hp0]
            push_cast
            ring
          have hns2 := WeierstrassCurve.Affine.nonsingular_add hPns hQns
            (fun hc => absurd hc hxne)
          rw [← hrx, ← hry] at hns2
          subst h5
          have hnsent := result_ne_sentinel hb hns2
          have hRv : ValidRep C ((((Q.2 - P.2) * i % C.p) ^ 2 - P.1 - Q.1) % C.p,
                ((Q.2 - P.2) * i % C.p *
                  (P.1 - (((Q.2 - P.2) * i % C.p) ^ 2 - P.1 - Q.1) % C.p) -
                 P.2) % C.p) := Or.inr ⟨hnsent,
            Int.emod_nonneg _ (by omega), Int.emod_lt_of_pos _ hp0,
            Int.emod_nonneg _ (by omega), Int.emod_lt_of_pos _ hp0, hns2⟩
          refine ⟨hRv, ?_⟩
          rw [ptF_some hRv hnsent hns2]
          exact someEq hrx hry hns2 _

/-! ### Completeness of pointAdd and the double-and-add loop -/

theorem gcd_one_of_cast_ne {C : CurveParams} [Fact (Nat.Prime C.p.toNat)]
    (hp2 : 2 < C.p) {d : Int} (hnd : ((d : ZMod C.p.toNat)) ≠ 0) :
    Nat.gcd ((d % C.p).toNat) C.p.toNat = 1 := by
  by_contra hne
  have hdvd : Nat.gcd ((d % C.p).toNat) C.p.toNat ∣ C.p.toNat := Nat.gcd_dvd_right _ _
  have hprime : Nat.Prime C.p.toNat := Fact.out
  rcases hprime.eq_one_or_self_of_dvd _ hdvd with h | h
  · exact hne h
  · have hdvd2 : C.p.toNat ∣ ((d % C.p).toNat) := h ▸ Nat.gcd_dvd_left _ _
    have hlt : ((d % C.p).toNat) < C.p.toNat := by
      have h1 := Int.emod_lt_of_pos d (show (0 : Int) < C.p by omega)
      have h2 := Int.emod_nonneg d (show (C.p : Int) ≠ 0 by omega)
      omega
    have hz : ((d % C.p).toNat) = 0 := Nat.eq_zero_of_dvd_of_lt hdvd2 hlt
    apply hnd
    have hnn := Int.emod_nonneg d (show (C.p : Int) ≠ 0 by omega)
    have hd0 : d % C.p = 0 := by omega
    rw [← intCast_emod_zmod (show (0 : Int) < C.p by omega) d, hd0, Int.cast_zero]

theorem two_ne_zero_zmod {C : CurveParams} [Fact (Nat.Prime C.p.toNat)]
    (hp2 : 2 < C.p) : ((2 : Int) : ZMod C.p.toNat) ≠ 0 := by
  intro hcon
  have h2 : (((2 : Nat) : Nat) : ZMod C.p.toNat) = 0 := by push_cast at hcon ⊢; exact hcon
  rw [ZMod.natCast_zmod_eq_zero_iff_dvd] at h2
  have := Nat.le_of_dvd (by norm_num) h2
  omega

theorem pointAdd_complete {C : CurveParams} [Fact (Nat.Prime C.p.toNat)]
    (hp2 : 2 < C.p)
    {P Q : Int × Int} (hP : ValidRep C P) (hQ : ValidRep C Q)
    (hcrash : P = Q → P.2 = 0 → P = (0, 0)) :
    ∃ R, pointAdd C P Q = .ok R := by
  have hp0 : (0 : Int) < C.p := by omega
  unfold pointAdd
  by_cases h1 : P.1 = P.2 ∧ P.2 = 0
  · exact ⟨Q, by rw [if_pos h1]⟩
  · rw [if_neg h1]
    by_cases h2 : Q.1 = Q.2 ∧ Q.2 = 0
    · exact ⟨P, by rw [if_pos h2]⟩
    · rw [if_neg h2]
      obtain ⟨hPne, hPx0, hPx1, hPy0, hPy1, hPns⟩ := hP.resolve_left (by
        intro hc; apply h1; rw [hc]; exact ⟨rfl, rfl⟩)
      obtain ⟨hQne, hQx0, hQx1, hQy0, hQy1, hQns⟩ := hQ.resolve_left (by
        intro hc; apply h2; rw [hc]; exact ⟨rfl, rfl⟩)
      by_cases h3 : P.1 = Q.1
      · rw [if_pos h3]
        by_cases h4 : P.2 = Q.2
        · rw [if_pos h4]
          have hPQ : P = Q := Prod.ext h3 h4
          have hy0 : P.2 ≠ 0 := by
            intro hy
            apply h1
            rw [hcrash hPQ hy]
            exact ⟨rfl, rfl⟩
          have hyc : ((P.2 : ZMod C.p.toNat)) ≠ 0 := by
            intro hcon
            apply hy0
            exact int_cast_inj_range hp0 hPy0 hPy1 (le_refl 0) hp0
              (by rw [hcon, Int.cast_zero])
          have hnd : (((2 * P.2 : Int) : ZMod C.p.toNat)) ≠ 0 := by
            have hcast : ((2 * P.2 : Int) : ZMod C.p.toNat) =
                ((2 : Int) : ZMod C.p.toNat) * ((P.2 : ZMod C.p.toNat)) := by push_cast; ring
            rw [hcast]
            exact mul_ne_zero (two_ne_zero_zmod hp2) hyc
          obtain ⟨i, hi⟩ := inv_mod_isOk.mpr (gcd_one_of_cast_ne hp2 hnd)
          refine ⟨((((3 * P.1 ^ 2 + C.a) * i % C.p) ^ 2 - 2 * P.1) % C.p,
            (((3 * P.1 ^ 2 + C.a) * i % C.p) *
              (P.1 - (((3 * P.1 ^ 2 + C.a) * i % C.p) ^ 2 - 2 * P.1) % C.p) - P.2) % C.p), ?_⟩
          rw [hi, bind_ok_eq]
          rfl
        · rw [if_neg h4]
          exact ⟨(0, 0), rfl⟩
      · rw [if_neg h3]
        have hnd : (((Q.1 - P.1 : Int) : ZMod C.p.toNat)) ≠ 0 := by
          have hcast : ((Q.1 - P.1 : Int) : ZMod C.p.toNat) =
              ((Q.1 : ZMod C.p.toNat)) - ((P.1 : ZMod C.p.toNat)) := by push_cast; ring
          rw [hcast, sub_ne_zero]
          intro hcon
          exact h3 (int_cast_inj_range hp0 hPx0 hPx1 hQx0 hQx1 hcon.symm)
        obtain ⟨i, hi⟩ := inv_mod_isOk.mpr (gcd_one_of_cast_ne hp2 hnd)
        refine ⟨((((Q.2 - P.2) * i % C.p) ^ 2 - P.1 - Q.1) % C.p,
          (((Q.2 - P.2) * i % C.p) *
            (P.1 - (((Q.2 - P.2) * i % C.p) ^ 2 - P.1 - Q.1) % C.p) - P.2) % C.p), ?_⟩
        rw [hi, bind_ok_eq]
        rfl

/-- A valid representation whose y-coordinate is zero represents either the
identity or a point of order two; if the represented point is torsion-free it
must be the sentinel. -/
theorem valid_y0_sentinel {C : CurveParams} [Fact (Nat.Prime C.p.toNat)]
    (hp2 : 2 < C.p) {P : Int × Int} (hv : ValidRep C P)
    (htor2 : 2 • ptF C.p.toNat C.a C.b P = 0 → ptF C.p.toNat C.a C.b P = 0)
    (hy : P.2 = 0) : P = (0, 0) := by
  rcases hv with h0 | ⟨hne, hx0, hx1, hy0, hy1, hns⟩
  · exact h0
  · exfalso
    have hXeq : ptF C.p.toNat C.a C.b P = .some hns :=
      ptF_some (Or.inr ⟨hne, hx0, hx1, hy0, hy1, hns⟩) hne hns
    have hyc : ((P.2 : ZMod C.p.toNat)) = 0 := by rw [hy, Int.cast_zero]
    have hsum : ptF C.p.toNat C.a C.b P + ptF C.p.toNat C.a C.b P = 0 := by
      rw [hXeq]
      exact Point.add_self_of_Y_eq (by rw [Wc_negY, hyc, neg_zero])
    have h2 : 2 • ptF C.p.toNat C.a C.b P = 0 := by rw [two_nsmul]; exact hsum
    have h0 := htor2 h2
    rw [hXeq] at h0
    exact Point.some_ne_zero hns h0

theorem shiftRight_succ_eq (k s : Nat) :
    k >>> s = 2 * (k >>> (s + 1)) + (k >>> s) % 2 := by
  simp only [Nat.shiftRight_eq_div_pow]
  have h1 : k / 2 ^ (s + 1) = k / 2 ^ s / 2 := by
    rw [pow_succ, Nat.div_div_eq_div_mul]
  rw [h1]
  omega

theorem rmulGo_sound {C : CurveParams} [Fact (Nat.Prime C.p.toNat)]
    (hp2 : 2 < C.p) (hb : ((C.b : ZMod C.p.toNat)) ≠ 0)
    {g : Int × Int} (hg : ValidRep C g) (k : Nat) :
    ∀ (s : Nat) (acc R : Int × Int), ValidRep C acc →
      ptF C.p.toNat C.a C.b acc = (k >>> s) • ptF C.p.toNat C.a C.b g →
      rmulGo C g k s acc = .ok R →
      ValidRep C R ∧ ptF C.p.toNat C.a C.b R = k • ptF C.p.toNat C.a C.b g := by
  intro s
  induction s with
  | zero =>
    intro acc R hacc hm h
    cases h
    refine ⟨hacc, ?_⟩
    rw [hm, Nat.shiftRight_zero]
  | succ s ih =>
    intro acc R hacc hm h
    simp only [rmulGo] at h
    cases hd : pointAdd C acc acc with
    | error e => rw [hd, bind_error_eq] at h; cases h
    | ok d =>
      rw [hd, bind_ok_eq] at h
      obtain ⟨hdv, hdp⟩ := pointAdd_sound hp2 hb hacc hacc hd
      have hdval : ptF C.p.toNat C.a C.b d =
          (2 * (k >>> (s + 1))) • ptF C.p.toNat C.a C.b g := by
        rw [hdp, hm, ← smul_smul, two_nsmul]
      by_cases hb1 : (k >>> s) % 2 = 1
      · rw [if_pos hb1] at h
        cases ha : pointAdd C d g with
        | error e => rw [ha, bind_error_eq] at h; cases h
        | ok a2 =>
          rw [ha, bind_ok_eq] at h
          obtain ⟨hav, hap⟩ := pointAdd_sound hp2 hb hdv hg ha
          apply ih a2 R hav ?_ h
          rw [hap, hdval]
          have hbit : k >>> s = 2 * (k >>> (s + 1)) + 1 := by
            have := shiftRight_succ_eq k s
            omega
          rw [hbit, add_nsmul, one_nsmul]
      · rw [if_neg hb1, bind_ok_eq] at h
        apply ih d R hdv ?_ h
        rw [hdval]
        have hbit : k >>> s = 2 * (k >>> (s + 1)) := by
          have := shiftRight_succ_eq k s
          omega
        rw [hbit]

theorem rmulNat_sound {C : CurveParams} [Fact (Nat.Prime C.p.toNat)]
    (hp2 : 2 < C.p) (hb : ((C.b : ZMod C.p.toNat)) ≠ 0)
    {g : Int × Int} (hg : ValidRep C g) (k : Nat) {R : Int × Int}
    (h : rmulNat C k g = .ok R) :
    ValidRep C R ∧ ptF C.p.toNat C.a C.b R = k • ptF C.p.toNat C.a C.b g := by
  unfold rmulNat at h
  by_cases hk : k = 0
  · rw [if_pos hk] at h
    cases h
    subst hk
    exact ⟨Or.inl rfl, by rw [ptF_zero, zero_nsmul]⟩
  · rw [if_neg hk] at h
    exact rmulGo_sound hp2 hb hg k (bitlen k) (0, 0) R (Or.inl rfl) (by
      have hz : k >>> bitlen k = 0 := by
        rw [Nat.shiftRight_eq_div_pow]
        exact Nat.div_eq_of_lt (lt_two_pow_bitlen k)
      rw [ptF_zero, hz, zero_nsmul]) h

theorem rmulGo_spec {C : CurveParams} [Fact (Nat.Prime C.p.toNat)]
    (hp2 : 2 < C.p) (hb : ((C.b : ZMod C.p.toNat)) ≠ 0)
    {g : Int × Int} (hg : ValidRep C g)
    (htor : ∀ X : (Wc C.p.toNat C.a C.b).Point,
      (∃ m : Nat, X = m • ptF C.p.toNat C.a C.b g) → 2 • X = 0 → X = 0)
    (k : Nat) :
    ∀ (s : Nat) (acc : Int × Int), ValidRep C acc →
      ptF C.p.toNat C.a C.b acc = (k >>> s) • ptF C.p.toNat C.a C.b g →
      ∃ R, rmulGo C g k s acc = .ok R := by
  intro s
  induction s with
  | zero => intro acc hacc hm; exact ⟨acc, rfl⟩
  | succ s ih =>
    intro acc hacc hm
    obtain ⟨d, hd⟩ := pointAdd_complete hp2 hacc hacc (fun _ hy =>
      valid_y0_sentinel hp2 hacc (fun h2 => htor _ ⟨k >>> (s + 1), hm⟩ h2) hy)
    obtain ⟨hdv, hdp⟩ := pointAdd_sound hp2 hb hacc hacc hd
    have hdval : ptF C.p.toNat C.a C.b d =
        (2 * (k >>> (s + 1))) • ptF C.p.toNat C.a C.b g := by
      rw [hdp, hm, ← smul_smul, two_nsmul]
    by_cases hb1 : (k >>> s) % 2 = 1
    · obtain ⟨a2, ha⟩ := pointAdd_complete hp2 hdv hg (fun _ hy =>
        valid_y0_sentinel hp2 hdv (fun h2 => htor _ ⟨2 * (k >>> (s + 1)), hdval⟩ h2) hy)
      obtain ⟨hav, hap⟩ := pointAdd_sound hp2 hb hdv hg ha
      have hm2 : ptF C.p.toNat C.a C.b a2 = (k >>> s) • ptF C.p.toNat C.a C.b g := by
        rw [hap, hdval]
        have hbit : k >>> s = 2 * (k >>> (s + 1)) + 1 := by
          have := shiftRight_succ_eq k s
          omega
        rw [hbit, add_nsmul, one_nsmul]
      obtain ⟨R, hR⟩ := ih a2 hav hm2
      refine ⟨R, ?_⟩
      simp only [rmulGo]
      rw [hd, bind_ok_eq, if_pos hb1, ha, bind_ok_eq]
      exact hR
    · have hm2 : ptF C.p.toNat C.a C.b d = (k >>> s) • ptF C.p.toNat C.a C.b g := by
        rw [hdval]
        have hbit : k >>> s = 2 * (k >>> (s + 1)) := by
          have := shiftRight_succ_eq k s
          omega
        rw [hbit]
      obtain ⟨R, hR⟩ := ih d hdv hm2
      refine ⟨R, ?_⟩
      simp only [rmulGo]
      rw [hd, bind_ok_eq, if_neg hb1, bind_ok_eq]
      exact hR

theorem rmulNat_spec {C : CurveParams} [Fact (Nat.Prime C.p.toNat)]
    (hp2 : 2 < C.p) (hb : ((C.b : ZMod C.p.toNat)) ≠ 0)
    {g : Int × Int} (hg : ValidRep C g)
    (htor : ∀ X : (Wc C.p.toNat C.a C.b).Point,
      (∃ m : Nat, X = m • ptF C.p.toNat C.a C.b g) → 2 • X = 0 → X = 0)
    (k : Nat) :
    ∃ R, rmulNat C k g = .ok R ∧ ValidRep C R ∧
      ptF C.p.toNat C.a C.b R = k • ptF C.p.toNat C.a C.b g := by
  by_cases hk : k = 0
  · subst hk
    refine ⟨(0, 0), ?_, Or.inl rfl, by rw [ptF_zero, zero_nsmul]⟩
    unfold rmulNat
    rw [if_pos rfl]
  · have hstart : ptF C.p.toNat C.a C.b ((0, 0) : Int × Int) =
        (k >>> bitlen k) • ptF C.p.toNat C.a C.b g := by
      have hz : k >>> bitlen k = 0 := by
        rw [Nat.shiftRight_eq_div_pow]
        exact Nat.div_eq_of_lt (lt_two_pow_bitlen k)
      rw [ptF_zero, hz, zero_nsmul]
    obtain ⟨R, hR⟩ := rmulGo_spec hp2 hb hg htor k (bitlen k) (0, 0) (Or.inl rfl) hstart
    have hok : rmulNat C k g = .ok R := by
      unfold rmulNat
      rw [if_neg hk]
      exact hR
    obtain ⟨hv, hval⟩ := rmulNat_sound hp2 hb hg k hok
    exact ⟨R, hok, hv, hval⟩

end EcdsaPy

namespace EcdsaPy

/-! ### Concrete facts about secp256r1 and its base point -/

theorem p256_toNat :
    secp256r1.p.toNat = 115792089210356248762697446949407573530086143415290314195533631308867097853951 := rfl

theorem n256_toNat :
    secp256r1.n.toNat = 115792089210356248762697446949407573529996955224135760342422259061068512044369 := rfl

theorem p256_gt2 : 2 < secp256r1.p := by decide

theorem b256_ne_zero : ((secp256r1.b : ZMod secp256r1.p.toNat)) ≠ 0 := by decide

theorem fact_p256 : Fact (Nat.Prime secp256r1.p.toNat) :=
  ⟨by rw [p256_toNat]; exact p256_prime⟩

theorem basepoint_valid : ValidRep secp256r1 basepointG :=
  Or.inr ⟨by decide, by decide, by decide, by decide, by decide, by decide⟩

/-- The double-and-add loop applied to the group order returns the sentinel:
`n · G = O`, established by kernel evaluation of the embedded code. -/
theorem nG_zero : rmulNat secp256r1 secp256r1.n.toNat basepointG = .ok (0, 0) := by decide

theorem nB_zero [Fact (Nat.Prime secp256r1.p.toNat)] :
    secp256r1.n.toNat • ptF secp256r1.p.toNat secp256r1.a secp256r1.b basepointG = 0 := by
  obtain ⟨_, hval⟩ := rmulNat_sound p256_gt2 b256_ne_zero basepoint_valid
    secp256r1.n.toNat nG_zero
  rw [← hval, ptF_zero]

/-- No multiple of the base point is a nontrivial 2-torsion point: the order of
any multiple divides both 2 and the odd prime n. -/
theorem htor256 [Fact (Nat.Prime secp256r1.p.toNat)] :
    ∀ X : (Wc secp256r1.p.toNat secp256r1.a secp256r1.b).Point,
      (∃ m : Nat, X = m • ptF secp256r1.p.toNat secp256r1.a secp256r1.b basepointG) →
      2 • X = 0 → X = 0 := by
  intro X hX h2
  obtain ⟨m, hm⟩ := hX
  have hnX : secp256r1.n.toNat • X = 0 := by
    rw [hm, smul_smul, Nat.mul_comm, ← smul_smul, nB_zero]
    exact nsmul_zero m
  have hgcd : Nat.gcd 2 secp256r1.n.toNat = 1 := by rw [n256_toNat]; decide
  have hd2 : addOrderOf X ∣ 2 := addOrderOf_dvd_of_nsmul_eq_zero h2
  have hdn : addOrderOf X ∣ secp256r1.n.toNat := addOrderOf_dvd_of_nsmul_eq_zero hnX
  have h1 : addOrderOf X ∣ 1 := by
    have hg := Nat.dvd_gcd hd2 hdn
    rwa [hgcd] at hg
  rw [← AddMonoid.addOrderOf_eq_one_iff]
  exact Nat.dvd_one.mp h1

/-- C3: For all integers k1, k2 in [0, n) and the base point G of secp256r1,
scalar multiplication and point addition satisfy
(k1*G) + (k2*G) == ((k1 + k2) mod n)*G, where == is CurvePoint equality
(equality of the stored coordinate pairs): both scalar multiplications and the
addition succeed, and the sum equals the scalar multiple of the reduced sum. -/
theorem c3_group_law (k1 k2 : Nat)
    (hk1 : k1 < secp256r1.n.toNat) (hk2 : k2 < secp256r1.n.toNat) :
    ∃ R1 R2 S : Int × Int,
      rmulNat secp256r1 k1 basepointG = .ok R1 ∧
      rmulNat secp256r1 k2 basepointG = .ok R2 ∧
      pointAdd secp256r1 R1 R2 = .ok S ∧
      rmulNat secp256r1 ((k1 + k2) % secp256r1.n.toNat) basepointG = .ok S := by
  haveI : Fact (Nat.Prime secp256r1.p.toNat) := fact_p256
  have hp2 := p256_gt2
  have hb := b256_ne_zero
  have hg := basepoint_valid
  have htor := htor256
  obtain ⟨R1, hR1, hv1, hm1⟩ := rmulNat_spec hp2 hb hg htor k1
  obtain ⟨R2, hR2, hv2, hm2⟩ := rmulNat_spec hp2 hb hg htor k2
  obtain ⟨R3, hR3, hv3, hm3⟩ :=
    rmulNat_spec hp2 hb hg htor ((k1 + k2) % secp256r1.n.toNat)
  obtain ⟨S, hS⟩ := pointAdd_complete hp2 hv1 hv2 (fun _ hy =>
    valid_y0_sentinel hp2 hv1 (fun h2t => htor _ ⟨k1, hm1⟩ h2t) hy)
  obtain ⟨hvS, hmS⟩ := pointAdd_sound hp2 hb hv1 hv2 hS
  have hmod : ptF secp256r1.p.toNat secp256r1.a secp256r1.b S =
      ptF secp256r1.p.toNat secp256r1.a secp256r1.b R3 := by
    rw [hmS, hm1, hm2, hm3, ← add_nsmul]
    conv_lhs => rw [← Nat.mod_add_div (k1 + k2) secp256r1.n.toNat]
    rw [add_nsmul, mul_nsmul, nB_zero, nsmul_zero, add_zero]
  have hSR3 : S = R3 :=
    ptF_inj (show (0 : Int) < secp256r1.p by omega) hvS hv3 hmod
  exact ⟨R1, R2, S, hR1, hR2, hS, hSR3 ▸ hR3⟩

/-- Witness for C3 at k1 = 2, k2 = 3. -/
theorem c3_group_law_witness :
    2 < secp256r1.n.toNat ∧ 3 < secp256r1.n.toNat ∧
    ∃ R1 R2 S : Int × Int,
      rmulNat secp256r1 2 basepointG = .ok R1 ∧
      rmulNat secp256r1 3 basepointG = .ok R2 ∧
      pointAdd secp256r1 R1 R2 = .ok S ∧
      rmulNat secp256r1 ((2 + 3) % secp256r1.n.toNat) basepointG = .ok S :=
  ⟨by decide, by decide, c3_group_law 2 3 (by decide) (by decide)⟩

end EcdsaPy

namespace EcdsaPy

/-! ### Sign/verify round trip (C1) -/

theorem fact_n256 : Fact (Nat.Prime secp256r1.n.toNat) :=
  ⟨by rw [n256_toNat]; exact n256_prime⟩

theorem n256_gt0 : (0 : Int) < secp256r1.n := by decide

theorem gcd_one_of_zmod_ne {P : Int} [Fact (Nat.Prime P.toNat)] (hp0 : 0 < P)
    {d : Int} (hnd : ((d : ZMod P.toNat)) ≠ 0) :
    Nat.gcd ((d % P).toNat) P.toNat = 1 := by
  by_contra hne
  have hdvd : Nat.gcd ((d % P).toNat) P.toNat ∣ P.toNat := Nat.gcd_dvd_right _ _
  have hprime : Nat.Prime P.toNat := Fact.out
  rcases hprime.eq_one_or_self_of_dvd _ hdvd with h | h
  · exact hne h
  · have hdvd2 : P.toNat ∣ ((d % P).toNat) := h ▸ Nat.gcd_dvd_left _ _
    have hlt : ((d % P).toNat) < P.toNat := by
      have h1 := Int.emod_lt_of_pos d hp0
      have h2 := Int.emod_nonneg d hp0.ne'
      omega
    have hz : ((d % P).toNat) = 0 := Nat.eq_zero_of_dvd_of_lt hdvd2 hlt
    apply hnd
    have hnn := Int.emod_nonneg d hp0.ne'
    have hd0 : d % P = 0 := by omega
    rw [← intCast_emod_zmod hp0 d, hd0, Int.cast_zero]

theorem pointRMul_nonneg {C : CurveParams} (k : Int) (hk : 0 ≤ k) (P : Int × Int) :
    pointRMul C k P = rmulNat C k.toNat P := by
  unfold pointRMul
  rw [if_neg (not_lt.mpr hk)]

theorem mod_nsmul_eq {M : Type} [AddCommMonoid M] {B : M} {N : Nat}
    (hNB : N • B = 0) (a : Nat) : a • B = (a % N) • B := by
  conv_lhs => rw [← Nat.mod_add_div a N]
  rw [add_nsmul, mul_nsmul, hNB, nsmul_zero, add_zero]

theorem nsmul_eq_of_cast_eq {M : Type} [AddCommMonoid M] {B : M} {N : Nat}
    (hNB : N • B = 0) {x y : Nat}
    (h : ((x : Nat) : ZMod N) = ((y : Nat) : ZMod N)) : x • B = y • B := by
  rw [mod_nsmul_eq hNB x, mod_nsmul_eq hNB y]
  have hmod : x % N = y % N := (ZMod.natCast_eq_natCast_iff x y N).mp h
  rw [hmod]

/-- Unfolding of the `while r == 0` retry loop: a successful run returns
`k = rand + 1 ≥ 1` for some drawn value and `r = (k·G).x mod n ≠ 0`. -/
theorem signRetry_spec {C : CurveParams} {G : Int × Int} :
    ∀ (rands : List Nat) {k r : Int},
      signRetry C G rands = .ok (k, r) →
      1 ≤ k ∧ ∃ Rk : Int × Int, pointRMul C k G = .ok Rk ∧ r = Rk.1 % C.n ∧ r ≠ 0 := by
  intro rands
  induction rands with
  | nil => intro k r h; exact absurd h (by simp [signRetry])
  | cons rand rest ih =>
    intro k r h
    simp only [signRetry, create_key_pair] at h
    cases hR : pointRMul C ((rand : Int) + 1) G with
    | error e => rw [hR, bind_error_eq] at h; cases h
    | ok Rk =>
      rw [hR, bind_ok_eq] at h
      by_cases hr0 : Rk.1 % C.n = 0
      · rw [if_pos hr0] at h
        exact ih h
      · rw [if_neg hr0] at h
        have hpair : ((rand : Int) + 1, Rk.1 % C.n) = (k, r) :=
          (Except.ok.injEq _ _).mp h
        rw [Prod.mk.injEq] at hpair
        obtain ⟨hk, hr⟩ := hpair
        refine ⟨by omega, Rk, ?_, hr.symm, ?_⟩
        · rw [← hk]; exact hR
        · rw [← hr]; exact hr0

/-- C1 counterexample: the key pair `(c1d, c1Q)` is produced by
`create_key_pair` from the randomness value `c1rand`; with hash output `"01"`
and ephemeral draw `0` (`k = 1`), `create_sign` returns the signature
`(c1r, 0)` — the retry loop guards only `r = 0`, not `s = 0` — and
`verify_sign` rejects that signature, refuting the unconditional round trip. -/
theorem c1_counterexample :
    create_key_pair secp256r1 basepointG c1rand = ((c1d : Int), .ok c1Q) ∧
    create_sign secp256r1 basepointG (fun _ => "01") c1d [0] [] = .ok (c1r, 0) ∧
    verify_sign secp256r1 basepointG (fun _ => "01") c1Q [] (c1r, 0) = .ok false :=
  ⟨by decide, by decide, by decide⟩

/-- C1 (amended): the sign/verify round trip holds for every signature whose
`s` is nonzero: for every injected hash function, message, private scalar
`d ≥ 1` with public point `Q = d·G`, and every sequence of ephemeral draws,
if `create_sign` returns `(r, s)` with `s ≠ 0` then `verify_sign` accepts. -/
theorem c1_amended (hf : List Nat → String) (msg : List Nat) (d : Int)
    (hd : 1 ≤ d) (rands : List Nat) {r s : Int} {Q : Int × Int}
    (hQ : pointRMul secp256r1 d basepointG = .ok Q)
    (hsig : create_sign secp256r1 basepointG hf d rands msg = .ok (r, s))
    (hs : s ≠ 0) :
    verify_sign secp256r1 basepointG hf Q msg (r, s) = .ok true := by
  haveI hFp : Fact (Nat.Prime secp256r1.p.toNat) := fact_p256
  haveI hFn : Fact (Nat.Prime secp256r1.n.toNat) := fact_n256
  have hp2 := p256_gt2
  have hb := b256_ne_zero
  have hgB := basepoint_valid
  have htor := htor256
  have hn0 : (0 : Int) < secp256r1.n := n256_gt0
  simp only [create_sign] at hsig
  cases hkr : signRetry secp256r1 basepointG rands with
  | error e => rw [hkr, bind_error_eq] at hsig; cases hsig
  | ok kr =>
    rw [hkr, bind_ok_eq] at hsig
    obtain ⟨k, r0⟩ := kr
    obtain ⟨hk1, Rk, hRk, hr0v, hrne⟩ := signRetry_spec rands hkr
    dsimp only at hsig
    cases hH : octet_str_to_octet_list (hf msg) with
    | error e => rw [hH, bind_error_eq] at hsig; cases hsig
    | ok H =>
      rw [hH, bind_ok_eq] at hsig
      cases hki : inv_mod k secp256r1.n with
      | error e => rw [hki, bind_error_eq] at hsig; cases hsig
      | ok kinv =>
        rw [hki, bind_ok_eq] at hsig
        have hpair : (r0, kinv * (digestE secp256r1 H + r0 * d) % secp256r1.n) = (r, s) :=
          (Except.ok.injEq _ _).mp hsig
        rw [Prod.mk.injEq] at hpair
        obtain ⟨hre, hse⟩ := hpair
        subst hre
        have hkinv := inv_mod_ok hn0 hki
        have hs0 : 0 ≤ s := by rw [← hse]; exact Int.emod_nonneg _ hn0.ne'
        have hsn : s < secp256r1.n := by rw [← hse]; exact Int.emod_lt_of_pos _ hn0
        have hr00 : 0 ≤ r0 := by rw [hr0v]; exact Int.emod_nonneg _ hn0.ne'
        have hr0n : r0 < secp256r1.n := by rw [hr0v]; exact Int.emod_lt_of_pos _ hn0
        simp only [verify_sign]
        rw [if_neg (not_not_intro ⟨by omega, by omega⟩)]
        rw [if_neg (not_not_intro ⟨by omega, by omega⟩)]
        rw [hH, bind_ok_eq]
        have hscast : ((s : ZMod secp256r1.n.toNat)) ≠ 0 := by
          intro hcon
          have h0 : ((0 : Int) : ZMod secp256r1.n.toNat) = 0 := Int.cast_zero
          have hse0 := int_cast_inj_range hn0 hs0 hsn (le_refl 0) hn0 (by rw [h0]; exact hcon)
          exact hs hse0
        obtain ⟨sinv, hsinv⟩ := inv_mod_isOk.mpr (gcd_one_of_zmod_ne hn0 hscast)
        rw [hsinv, bind_ok_eq]
        have hsinvok := inv_mod_ok hn0 hsinv
        have hu10 : 0 ≤ digestE secp256r1 H * sinv % secp256r1.n :=
          Int.emod_nonneg _ hn0.ne'
        have hu20 : 0 ≤ r0 * sinv % secp256r1.n := Int.emod_nonneg _ hn0.ne'
        rw [pointRMul_nonneg (digestE secp256r1 H * sinv % secp256r1.n) hu10 basepointG,
          pointRMul_nonneg (r0 * sinv % secp256r1.n) hu20 Q]
        obtain ⟨P1, hP1, hv1, hm1⟩ :=
          rmulNat_spec hp2 hb hgB htor (digestE secp256r1 H * sinv % secp256r1.n).toNat
        rw [hP1, bind_ok_eq]
        rw [pointRMul_nonneg d (by omega)] at hQ
        obtain ⟨hvQ, hmQ⟩ := rmulNat_sound hp2 hb hgB d.toNat hQ
        have htorQ : ∀ X : (Wc secp256r1.p.toNat secp256r1.a secp256r1.b).Point,
            (∃ m : Nat, X = m • ptF secp256r1.p.toNat secp256r1.a secp256r1.b Q) →
            2 • X = 0 → X = 0 := by
          intro X hX h2
          obtain ⟨m, hm⟩ := hX
          exact htor X ⟨m * d.toNat, by rw [hm, hmQ, smul_smul]⟩ h2
        obtain ⟨P2, hP2, hv2, hm2⟩ :=
          rmulNat_spec hp2 hb hvQ htorQ (r0 * sinv % secp256r1.n).toNat
        rw [hP2, bind_ok_eq]
        obtain ⟨S, hS⟩ := pointAdd_complete hp2 hv1 hv2 (fun _ hy =>
          valid_y0_sentinel hp2 hv1 (fun h2t => htor _ ⟨_, hm1⟩ h2t) hy)
        rw [hS, bind_ok_eq]
        obtain ⟨hvS, hmS⟩ := pointAdd_sound hp2 hb hv1 hv2 hS
        rw [pointRMul_nonneg k (by omega)] at hRk
        obtain ⟨hvRk, hmRk⟩ := rmulNat_sound hp2 hb hgB k.toNat hRk
        have hNn : ((secp256r1.n.toNat : Nat) : Int) = secp256r1.n :=
          Int.toNat_of_nonneg hn0.le
        have hkinvC : ((kinv : Int) : ZMod secp256r1.n.toNat) * ((k : Int) : ZMod secp256r1.n.toNat) = 1 := by
          have h1 : ((kinv * k : Int) : ZMod secp256r1.n.toNat) = ((1 : Int) : ZMod secp256r1.n.toNat) := by
            rw [ZMod.intCast_eq_intCast_iff]
            have hcg := hkinv.1
            rwa [show ((secp256r1.n.toNat : Nat) : Int) = secp256r1.n from hNn]
          push_cast at h1
          exact h1
        have hsinvC : ((sinv : Int) : ZMod secp256r1.n.toNat) * ((s : Int) : ZMod secp256r1.n.toNat) = 1 := by
          have h1 : ((sinv * s : Int) : ZMod secp256r1.n.toNat) = ((1 : Int) : ZMod secp256r1.n.toNat) := by
            rw [ZMod.intCast_eq_intCast_iff]
            have hcg := hsinvok.1
            rwa [show ((secp256r1.n.toNat : Nat) : Int) = secp256r1.n from hNn]
          push_cast at h1
          exact h1
        have hseF : ((s : Int) : ZMod secp256r1.n.toNat) =
            ((kinv : Int) : ZMod secp256r1.n.toNat) *
              (((digestE secp256r1 H : Int) : ZMod secp256r1.n.toNat) +
                ((r0 : Int) : ZMod secp256r1.n.toNat) * ((d : Int) : ZMod secp256r1.n.toNat)) := by
          have h2 : ((s : Int) : ZMod secp256r1.n.toNat) =
              ((kinv * (digestE secp256r1 H + r0 * d) % secp256r1.n : Int) : ZMod secp256r1.n.toNat) :=
            congrArg _ hse.symm
          rw [intCast_emod_zmod hn0] at h2
          push_cast at h2
          exact h2
        have hdc : ((d.toNat : Nat) : ZMod secp256r1.n.toNat) = ((d : Int) : ZMod secp256r1.n.toNat) := by
          rw [← Int.cast_natCast, Int.toNat_of_nonneg (by omega : (0 : Int) ≤ d)]
        have hkc : ((k.toNat : Nat) : ZMod secp256r1.n.toNat) = ((k : Int) : ZMod secp256r1.n.toNat) := by
          rw [← Int.cast_natCast, Int.toNat_of_nonneg (by omega : (0 : Int) ≤ k)]
        have hscongr : (((digestE secp256r1 H * sinv % secp256r1.n).toNat +
              (r0 * sinv % secp256r1.n).toNat * d.toNat : Nat) : ZMod secp256r1.n.toNat) =
            ((k.toNat : Nat) : ZMod secp256r1.n.toNat) := by
          push_cast
          rw [intCast_toNat_emod_zmod hn0, intCast_toNat_emod_zmod hn0, hdc, hkc]
          push_cast
          have hkey : ((digestE secp256r1 H : Int) : ZMod secp256r1.n.toNat) +
              ((r0 : Int) : ZMod secp256r1.n.toNat) * ((d : Int) : ZMod secp256r1.n.toNat) =
              ((k : Int) : ZMod secp256r1.n.toNat) * ((s : Int) : ZMod secp256r1.n.toNat) := by
            calc ((digestE secp256r1 H : Int) : ZMod secp256r1.n.toNat) +
                ((r0 : Int) : ZMod secp256r1.n.toNat) * ((d : Int) : ZMod secp256r1.n.toNat)
                = (((kinv : Int) : ZMod secp256r1.n.toNat) * ((k : Int) : ZMod secp256r1.n.toNat)) *
                  (((digestE secp256r1 H : Int) : ZMod secp256r1.n.toNat) +
                    ((r0 : Int) : ZMod secp256r1.n.toNat) * ((d : Int) : ZMod secp256r1.n.toNat)) := by
                    rw [hkinvC, one_mul]
              _ = ((k : Int) : ZMod secp256r1.n.toNat) *
                  (((kinv : Int) : ZMod secp256r1.n.toNat) *
                    (((digestE secp256r1 H : Int) : ZMod secp256r1.n.toNat) +
                      ((r0 : Int) : ZMod secp256r1.n.toNat) * ((d : Int) : ZMod secp256r1.n.toNat))) := by
                    ring
              _ = ((k : Int) : ZMod secp256r1.n.toNat) * ((s : Int) : ZMod secp256r1.n.toNat) := by
                    rw [← hseF]
          calc ((digestE secp256r1 H : Int) : ZMod secp256r1.n.toNat) *
                ((sinv : Int) : ZMod secp256r1.n.toNat) +
              ((r0 : Int) : ZMod secp256r1.n.toNat) * ((sinv : Int) : ZMod secp256r1.n.toNat) *
                ((d : Int) : ZMod secp256r1.n.toNat)
              = (((digestE secp256r1 H : Int) : ZMod secp256r1.n.toNat) +
                  ((r0 : Int) : ZMod secp256r1.n.toNat) * ((d : Int) : ZMod secp256r1.n.toNat)) *
                ((sinv : Int) : ZMod secp256r1.n.toNat) := by ring
            _ = (((k : Int) : ZMod secp256r1.n.toNat) * ((s : Int) : ZMod secp256r1.n.toNat)) *
                ((sinv : Int) : ZMod secp256r1.n.toNat) := by rw [hkey]
            _ = ((k : Int) : ZMod secp256r1.n.toNat) *
                (((sinv : Int) : ZMod secp256r1.n.toNat) * ((s : Int) : ZMod secp256r1.n.toNat)) := by
                ring
            _ = ((k : Int) : ZMod secp256r1.n.toNat) := by rw [hsinvC, mul_one]
        have hSptF : ptF secp256r1.p.toNat secp256r1.a secp256r1.b S =
            ptF secp256r1.p.toNat secp256r1.a secp256r1.b Rk := by
          rw [hmS, hm1, hm2, hmQ, hmRk, smul_smul, ← add_nsmul]
          exact nsmul_eq_of_cast_eq nB_zero hscongr
        have hSRk : S = Rk :=
          ptF_inj (show (0 : Int) < secp256r1.p by omega) hvS hvRk hSptF
        subst hSRk
        have hnotinf : ¬(S.1 = S.2 ∧ S.2 = 0) := by
          rintro ⟨h1, h2⟩
          apply hrne
          rw [hr0v, h1, h2]
          exact Int.zero_emod _
        rw [if_neg hnotinf]
        rw [← hr0v]
        simp
        rfl

/-- Witness for the amended C1 at hash `"01"`, message `[]`, `d = 1`,
ephemeral draw `0`: the signature is `(G.x mod n, (1 + G.x mod n) mod n)`. -/
theorem c1_amended_witness :
    (1 : Int) ≤ 1 ∧
    pointRMul secp256r1 1 basepointG = .ok basepointG ∧
    create_sign secp256r1 basepointG (fun _ => "01") 1 [0] [] =
      .ok (48439561293906451759052585252797914202762949526041747995844080717082404635286,
        48439561293906451759052585252797914202762949526041747995844080717082404635287) ∧
    (48439561293906451759052585252797914202762949526041747995844080717082404635287 : Int) ≠ 0 ∧
    verify_sign secp256r1 basepointG (fun _ => "01") basepointG []
      (48439561293906451759052585252797914202762949526041747995844080717082404635286,
        48439561293906451759052585252797914202762949526041747995844080717082404635287) = .ok true :=
  ⟨le_refl 1, by decide, by decide, by decide,
    c1_amended (fun _ => "01") [] 1 (le_refl 1) [0] (by decide) (by decide) (by decide)⟩

end EcdsaPy
